import Mathlib

/-!
Verification of the GoxLang recursive-descent parser (`src/v3/GOX_parser.py`).

The parser, its error recovery and the AST-to-document serializer are embedded
shallowly: the mutable cursor/`current_token` pair becomes an explicit
`ParserState`, Python `None` dereferences (AttributeError) become an explicit
`crash` outcome, and the mutually recursive grammar rules take a fuel argument
(Python recursion is unbounded; the fuel needed is proved to be linear in the
input size).
-/

namespace Gox

/-- Token as consumed by the parser: a type tag, a literal value and a line
number (`Modelled from the spec:` the `Token` class lives in `GOX_lexer.py`,
which is not part of the sources; the parser reads exactly the fields
`type`, `value`, `lineno`). -/
structure Token where
  type : String
  value : String
  lineno : Nat
deriving Repr, DecidableEq

/-- Line reference attached to a diagnostic: `expect` passes either the
current token's `lineno` (an integer) or the string "End of file". -/
inductive ErrLine where
  | line (n : Nat)
  | eof
deriving Repr, DecidableEq

/-- Parser state: the token list (never mutated), the cursor `pos`
(`self.pos`; `self.current_token` is exactly `tokens[pos]` when in range,
`None` otherwise), and the error sink's contents. -/
structure ParserState where
  tokens : List Token
  pos : Nat
  errors : List (String × ErrLine)
deriving Repr, DecidableEq

/-- Outcome of running a parser fragment: a value with the final state, a
`crash` (Python `AttributeError` from dereferencing `None`
`current_token`), or fuel exhaustion (`out` is an artifact of the fuel
encoding, not a Python behaviour). -/
inductive PR (α : Type) where
  | ok (a : α) (s : ParserState)
  | crash (s : ParserState)
  | out
deriving Repr, DecidableEq

/-- Sequencing of parser fragments: crashes and fuel exhaustion propagate. -/
def pbind {α β : Type} (x : PR α) (f : α → ParserState → PR β) : PR β :=
  match x with
  | .ok a s => f a s
  | .crash s => .crash s
  | .out => .out

/-- The current token, `self.current_token`: `tokens[pos]` if in range. -/
def cur (s : ParserState) : Option Token := s.tokens.get? s.pos

/-- Parser.advance: increment the cursor. -/
def advance (s : ParserState) : ParserState := { s with pos := s.pos + 1 }

/-- Parser.peek with the default offset 1. -/
def peek (s : ParserState) : Option Token := s.tokens.get? (s.pos + 1)

/-- ErrorHandler.add_error (`Modelled from the spec:` `GOX_error_handler.py`
is not among the sources; section 4.2 specifies an append-only sink whose
order is detection order). -/
def add_error (msg : String) (l : ErrLine) (s : ParserState) : ParserState :=
  { s with errors := s.errors ++ [(msg, l)] }

/-- Parser.expect: consume and return the current token when it has the
requested type; otherwise record the given message (or the default
"Expected TYPE") with the current line (or end of file) and return the
failure marker `none` (Python returns `False`). -/
def expect (token_type : String) (err_msg : Option String) (s : ParserState) :
    Option Token × ParserState :=
  match cur s with
  | some t =>
    if t.type = token_type then
      (some t, advance s)
    else
      (none, add_error (err_msg.getD ("Expected " ++ token_type)) (.line t.lineno) s)
  | none =>
    (none, add_error (err_msg.getD ("Expected " ++ token_type)) .eof s)

end Gox

namespace Gox

/-- AST nodes (`Modelled from the spec:` the node classes live in
`GOX_AST_nodes.py`, absent from the sources; the variant names, constructor
argument orders and attribute names are fixed by the parser's construction
sites and by `_serialize_ast`'s attribute reads, and by section 3 of the
spec). Every child slot is an `Option`, because the Python parser stores
`None` in expression slots (failed `parse_primary`) and appends `None` to
nested statement lists. A `Float` literal keeps its source text: host
floating-point conversion is not modelled. -/
inductive Node where
  | program (statements : List (Option Node))
  | integer (value : Int)
  | float (value : String)
  | boolean (value : Bool)
  | string (value : String)
  | binOp (op : String) (left : Option Node) (right : Option Node)
  | unaryOp (op : String) (operand : Option Node)
  | location (name : String)
  | functionCall (name : String) (args : List (Option Node))
  | print (expr : Option Node)
  | assignment (location : Option Node) (expr : Option Node)
  | ifStmt (test : Option Node) (consequence : List (Option Node))
      (alternative : List (Option Node))
  | whileStmt (test : Option Node) (body : List (Option Node))
  | variableDecl (name : String) (var_type : Option String) (value : Option Node)
  | constantDecl (name : String) (value : Option Node)
  | functionDecl (name : String) (params : List (Option Node))
      (return_type : Option String) (body : List (Option Node))
  | returnStmt (expr : Option Node)
  | parameter (name : String) (param_type : Option String)
  | importDecl (module_name : String)
deriving Repr

/-- Python `str.lower()` as used on TRUE/FALSE token values (character-wise
lowercasing; the lexer's keyword values are ASCII). -/
def pyLower (s : String) : String := ⟨s.data.map Char.toLower⟩

/-- Python `int(...)` applied to an INTEGER token's literal text (digits,
possibly with a sign, as produced by the lexer). -/
def pyInt (v : String) : Int :=
  let digits (l : List Char) : Int :=
    l.foldl (fun a c => a * 10 + ((c.toNat - '0'.toNat : Nat) : Int)) 0
  match v.data with
  | '-' :: rest => - digits rest
  | l => digits l

/-- Helper for the shared tail of Parser.parse_declaration (lines 252-256):
the lenient optional semicolon, then the node construction
(`ConstantDecl(ident, value)` or `VariableDecl(ident, var_type, value)`). -/
def decl_finish (is_const : Bool) (ident : String) (var_type : Option String)
    (value : Option Node) (s : ParserState) : PR Node :=
  let s1 :=
    match cur s with
    | some x => if x.type = "SEMI" then advance s else s
    | none => s
  .ok (if is_const then Node.constantDecl ident value
       else Node.variableDecl ident var_type value) s1

/-- Parser.parse_location (can crash: `self.current_token.value` with the
cursor past the end). -/
def parse_location (s : ParserState) : PR Node :=
  match cur s with
  | none => .crash s
  | some t =>
    let (_, s1) := expect "ID" none s
    .ok (.location t.value) s1

/-- Parser.parse_import: expects IMPORT, a module name and a semicolon;
returns `none` (Python `None`) when the module name is missing. -/
def parse_import (s : ParserState) : Option Node × ParserState :=
  let (_, s1) := expect "IMPORT" none s
  let (mt, s2) := expect "ID" (some "Expected module name after IMPORT") s1
  match mt with
  | none => (none, s2)
  | some m =>
    let (_, s3) := expect "SEMI" (some "Missing ';' after import declaration") s2
    (some (.importDecl m.value), s3)

mutual

/-- The `while self.current_token:` loop of Parser.parse: attempt a
statement; append it when truthy, otherwise skip one token. -/
def parse_loop : Nat → List (Option Node) → ParserState → PR (List (Option Node))
  | 0, _, _ => .out
  | fuel+1, statements, s =>
    match cur s with
    | none => .ok statements s
    | some _ =>
      pbind (parse_statement fuel s) fun stmt s1 =>
        match stmt with
        | some n => parse_loop fuel (statements ++ [some n]) s1
        | none => parse_loop fuel statements (advance s1)

/-- Parser.parse: run the statement loop and wrap the result in a Program. -/
def parse : Nat → ParserState → PR Node
  | 0, _ => .out
  | fuel+1, s =>
    pbind (parse_loop fuel [] s) fun statements s1 => .ok (.program statements) s1

/-- Parser.parse_statement: dispatch on the current token's type; the final
branch records "Unexpected token type: ..." and advances one token. -/
def parse_statement : Nat → ParserState → PR (Option Node)
  | 0, _ => .out
  | fuel+1, s =>
    match cur s with
    | none => .ok none s
    | some t =>
      if t.type = "IMPORT" then
        let (r, s1) := parse_import s
        .ok r s1
      else if t.type = "VAR" ∨ t.type = "CONST" then
        pbind (parse_declaration fuel s) fun stmt s1 =>
          let (_, s2) := expect "SEMI" (some "Missing ';' after declaration") s1
          .ok (some stmt) s2
      else if t.type = "PRINT" then
        pbind (parse_print fuel s) fun n s1 => .ok (some n) s1
      else if t.type = "IF" then
        pbind (parse_if fuel s) fun n s1 => .ok (some n) s1
      else if t.type = "WHILE" then
        pbind (parse_while fuel s) fun n s1 => .ok (some n) s1
      else if t.type = "FUNC" then
        pbind (parse_function fuel s) fun n s1 => .ok (some n) s1
      else if t.type = "RETURN" then
        pbind (parse_return fuel s) fun n s1 => .ok (some n) s1
      else if t.type = "ID" then
        match peek s with
        | some p =>
          if p.type = "LPAREN" then
            pbind (parse_function_call fuel s) fun n s1 => .ok (some n) s1
          else
            pbind (parse_assignment fuel s) fun n s1 => .ok (some n) s1
        | none =>
          pbind (parse_assignment fuel s) fun n s1 => .ok (some n) s1
      else
        .ok none (advance (add_error ("Unexpected token type: " ++ t.type) (.line t.lineno) s))

/-- Parser.parse_expression. -/
def parse_expression : Nat → ParserState → PR (Option Node)
  | 0, _ => .out
  | fuel+1, s => parse_logic_or fuel s

/-- Parser.parse_logic_or. -/
def parse_logic_or : Nat → ParserState → PR (Option Node)
  | 0, _ => .out
  | fuel+1, s =>
    pbind (parse_logic_and fuel s) fun node s1 => lor_loop fuel node s1

/-- The `while ... 'LOR'` loop of Parser.parse_logic_or. -/
def lor_loop : Nat → Option Node → ParserState → PR (Option Node)
  | 0, _, _ => .out
  | fuel+1, node, s =>
    match cur s with
    | some t =>
      if t.type = "LOR" then
        pbind (parse_logic_and fuel (advance s)) fun right s1 =>
          lor_loop fuel (some (.binOp t.value node right)) s1
      else .ok node s
    | none => .ok node s

/-- Parser.parse_logic_and. -/
def parse_logic_and : Nat → ParserState → PR (Option Node)
  | 0, _ => .out
  | fuel+1, s =>
    pbind (parse_comparison fuel s) fun node s1 => land_loop fuel node s1

/-- The `while ... 'LAND'` loop of Parser.parse_logic_and. -/
def land_loop : Nat → Option Node → ParserState → PR (Option Node)
  | 0, _, _ => .out
  | fuel+1, node, s =>
    match cur s with
    | some t =>
      if t.type = "LAND" then
        pbind (parse_comparison fuel (advance s)) fun right s1 =>
          land_loop fuel (some (.binOp t.value node right)) s1
      else .ok node s
    | none => .ok node s

/-- Parser.parse_comparison. -/
def parse_comparison : Nat → ParserState → PR (Option Node)
  | 0, _ => .out
  | fuel+1, s =>
    pbind (parse_term fuel s) fun node s1 => cmp_loop fuel node s1

/-- The comparison-operator loop of Parser.parse_comparison. -/
def cmp_loop : Nat → Option Node → ParserState → PR (Option Node)
  | 0, _, _ => .out
  | fuel+1, node, s =>
    match cur s with
    | some t =>
      if t.type ∈ (["LT", "GT", "LE", "GE", "EQ", "NE"] : List String) then
        pbind (parse_term fuel (advance s)) fun right s1 =>
          cmp_loop fuel (some (.binOp t.value node right)) s1
      else .ok node s
    | none => .ok node s

/-- Parser.parse_term (the additive layer). -/
def parse_term : Nat → ParserState → PR (Option Node)
  | 0, _ => .out
  | fuel+1, s =>
    pbind (parse_factor fuel s) fun node s1 => term_loop fuel node s1

/-- The PLUS/MINUS loop of Parser.parse_term. -/
def term_loop : Nat → Option Node → ParserState → PR (Option Node)
  | 0, _, _ => .out
  | fuel+1, node, s =>
    match cur s with
    | some t =>
      if t.type ∈ (["PLUS", "MINUS"] : List String) then
        pbind (parse_factor fuel (advance s)) fun right s1 =>
          term_loop fuel (some (.binOp t.value node right)) s1
      else .ok node s
    | none => .ok node s

/-- Parser.parse_factor (the multiplicative layer). -/
def parse_factor : Nat → ParserState → PR (Option Node)
  | 0, _ => .out
  | fuel+1, s =>
    pbind (parse_unary fuel s) fun node s1 => factor_loop fuel node s1

/-- The TIMES/DIVIDE/MOD/INT_DIV loop of Parser.parse_factor. -/
def factor_loop : Nat → Option Node → ParserState → PR (Option Node)
  | 0, _, _ => .out
  | fuel+1, node, s =>
    match cur s with
    | some t =>
      if t.type ∈ (["TIMES", "DIVIDE", "MOD", "INT_DIV"] : List String) then
        pbind (parse_unary fuel (advance s)) fun right s1 =>
          factor_loop fuel (some (.binOp t.value node right)) s1
      else .ok node s
    | none => .ok node s

/-- Parser.parse_unary. -/
def parse_unary : Nat → ParserState → PR (Option Node)
  | 0, _ => .out
  | fuel+1, s =>
    match cur s with
    | some t =>
      if t.type ∈ (["PLUS", "MINUS", "NOT", "DEREF"] : List String) then
        pbind (parse_primary fuel (advance s)) fun p s1 =>
          .ok (some (.unaryOp t.value p)) s1
      else parse_primary fuel s
    | none => parse_primary fuel s

/-- Parser.parse_primary. Note the unguarded `token.type` read: with the
token stream exhausted (`current_token is None`) this is a crash
(AttributeError), and likewise the `self.current_token.type != 'RPAREN'`
read after consuming `(` in a call expression. -/
def parse_primary : Nat → ParserState → PR (Option Node)
  | 0, _ => .out
  | fuel+1, s =>
    match cur s with
    | none => .crash s
    | some t =>
      if t.type = "INTEGER" then .ok (some (.integer (pyInt t.value))) (advance s)
      else if t.type = "FLOAT" then .ok (some (.float t.value)) (advance s)
      else if t.type = "LPAREN" then
        pbind (parse_expression fuel (advance s)) fun e s1 =>
          let (_, s2) := expect "RPAREN" (some "Missing closing parenthesis") s1
          .ok e s2
      else if t.type = "ID" then
        let s1 := advance s
        match cur s1 with
        | some u =>
          if u.type = "LPAREN" then
            let s2 := advance s1
            match cur s2 with
            | none => .crash s2
            | some v =>
              if v.type ≠ "RPAREN" then
                pbind (parse_expression fuel s2) fun a s3 =>
                pbind (args_loop fuel [a] s3) fun args s4 =>
                  let (_, s5) := expect "RPAREN" (some "Expected ')' after function arguments") s4
                  .ok (some (.functionCall t.value args)) s5
              else
                let (_, s5) := expect "RPAREN" (some "Expected ')' after function arguments") s2
                .ok (some (.functionCall t.value [])) s5
          else .ok (some (.location t.value)) s1
        | none => .ok (some (.location t.value)) s1
      else if t.type = "TRUE" ∨ t.type = "FALSE" then
        .ok (some (.boolean (pyLower t.value = "true"))) (advance s)
      else if t.type = "STRING" then .ok (some (.string t.value)) (advance s)
      else
        .ok none (advance (add_error "Invalid expression" (.line t.lineno) s))

/-- The `while ... 'COMMA'` argument loop shared textually by
Parser.parse_primary's call branch and Parser.parse_function_call. -/
def args_loop : Nat → List (Option Node) → ParserState → PR (List (Option Node))
  | 0, _, _ => .out
  | fuel+1, args, s =>
    match cur s with
    | some t =>
      if t.type = "COMMA" then
        pbind (parse_expression fuel (advance s)) fun a s1 =>
          args_loop fuel (args ++ [a]) s1
      else .ok args s
    | none => .ok args s

/-- Parser.parse_print. -/
def parse_print : Nat → ParserState → PR Node
  | 0, _ => .out
  | fuel+1, s =>
    let (_, s1) := expect "PRINT" none s
    pbind (parse_expression fuel s1) fun e s2 =>
      let (_, s3) := expect "SEMI" (some "Missing ';' after print statement") s2
      .ok (.print e) s3

/-- Parser.parse_assignment. -/
def parse_assignment : Nat → ParserState → PR Node
  | 0, _ => .out
  | fuel+1, s =>
    pbind (parse_location s) fun loc s1 =>
      let (_, s2) := expect "ASSIGN" (some "Missing '=' in assignment") s1
      pbind (parse_expression fuel s2) fun e s3 =>
        let (_, s4) := expect "SEMI" (some "Missing ';' after assignment") s3
        .ok (.assignment (some loc) e) s4

/-- Parser.parse_if. -/
def parse_if : Nat → ParserState → PR Node
  | 0, _ => .out
  | fuel+1, s =>
    let (_, s1) := expect "IF" none s
    pbind (parse_expression fuel s1) fun test s2 =>
      let (_, s3) := expect "LBRACE" (some "Missing '\x7b' after if condition") s2
      pbind (block_loop fuel [] s3) fun consequence s4 =>
        let (_, s5) := expect "RBRACE" (some "Missing '\x7d' at the end of if block") s4
        match cur s5 with
        | some t =>
          if t.type = "ELSE" then
            let s6 := advance s5
            let (_, s7) := expect "LBRACE" (some "Missing '\x7b' after else") s6
            pbind (block_loop fuel [] s7) fun alternative s8 =>
              let (_, s9) := expect "RBRACE" (some "Missing '\x7d' at the end of else block") s8
              .ok (.ifStmt test consequence alternative) s9
          else .ok (.ifStmt test consequence []) s5
        | none => .ok (.ifStmt test consequence []) s5

/-- The `while ... != 'RBRACE'` body loop, written identically in
Parser.parse_if (twice), Parser.parse_while and Parser.parse_function: it
appends the raw result of parse_statement, `None` included. -/
def block_loop : Nat → List (Option Node) → ParserState → PR (List (Option Node))
  | 0, _, _ => .out
  | fuel+1, acc, s =>
    match cur s with
    | some t =>
      if t.type ≠ "RBRACE" then
        pbind (parse_statement fuel s) fun stmt s1 =>
          block_loop fuel (acc ++ [stmt]) s1
      else .ok acc s
    | none => .ok acc s

/-- Parser.parse_while. -/
def parse_while : Nat → ParserState → PR Node
  | 0, _ => .out
  | fuel+1, s =>
    let (_, s1) := expect "WHILE" none s
    pbind (parse_expression fuel s1) fun test s2 =>
      let (_, s3) := expect "LBRACE" (some "Missing '\x7b' after while condition") s2
      pbind (block_loop fuel [] s3) fun body s4 =>
        let (_, s5) := expect "RBRACE" (some "Missing '\x7d' at the end of while block") s4
        .ok (.whileStmt test body) s5

/-- Parser.parse_declaration. The two `self.current_token` reads (`.type`
for `is_const`, `.value` for the identifier) crash when the stream is
exhausted. The trailing semicolon is consumed leniently here even though
parse_statement expects a further SEMI after this returns. -/
def parse_declaration : Nat → ParserState → PR Node
  | 0, _ => .out
  | fuel+1, s =>
    match cur s with
    | none => .crash s
    | some t =>
      let is_const := t.type = "CONST"
      let s1 := advance s
      match cur s1 with
      | none => .crash s1
      | some u =>
        let ident := u.value
        let (_, s2) := expect "ID" (some "Expected identifier in declaration") s1
        let (var_type, s3) :=
          match cur s2 with
          | some v => if v.type = "ID" then (some v.value, advance s2) else (none, s2)
          | none => ((none : Option String), s2)
        decl_value fuel is_const ident var_type s3

/-- The optional-initializer tail of Parser.parse_declaration (lines
247-251): an `=` starts an initializer expression, then the lenient
semicolon handling of `decl_finish`. -/
def decl_value : Nat → Bool → String → Option String → ParserState → PR Node
  | 0, _, _, _, _ => .out
  | fuel+1, is_const, ident, var_type, s =>
    match cur s with
    | some w =>
      if w.type = "ASSIGN" then
        pbind (parse_expression fuel (advance s)) fun value s4 =>
          decl_finish is_const ident var_type value s4
      else decl_finish is_const ident var_type none s
    | none => decl_finish is_const ident var_type none s

/-- Parser.parse_function_call (the statement form). The initial
`self.current_token.value` read and the `!= 'RPAREN'` read crash when the
stream is exhausted. -/
def parse_function_call : Nat → ParserState → PR Node
  | 0, _ => .out
  | fuel+1, s =>
    match cur s with
    | none => .crash s
    | some t =>
      let name := t.value
      let (_, s1) := expect "ID" (some "Expected function name") s
      let (_, s2) := expect "LPAREN" (some "Expected '(' after function name") s1
      match cur s2 with
      | none => .crash s2
      | some u =>
        if u.type ≠ "RPAREN" then
          pbind (parse_expression fuel s2) fun a s3 =>
          pbind (args_loop fuel [a] s3) fun args s4 =>
            let (_, s5) := expect "RPAREN" (some "Expected ')' after function arguments") s4
            let (_, s6) := expect "SEMI" (some "Missing ';' after function call") s5
            .ok (.functionCall name args) s6
        else
          let (_, s5) := expect "RPAREN" (some "Expected ')' after function arguments") s2
          let (_, s6) := expect "SEMI" (some "Missing ';' after function call") s5
          .ok (.functionCall name []) s6

/-- The `while ... 'COMMA'` parameter loop of Parser.parse_function; the
`self.current_token.value` read after consuming the comma crashes when the
stream is exhausted. -/
def params_loop : Nat → List (Option Node) → ParserState → PR (List (Option Node))
  | 0, _, _ => .out
  | fuel+1, params, s =>
    match cur s with
    | some t =>
      if t.type = "COMMA" then
        let s1 := advance s
        match cur s1 with
        | none => .crash s1
        | some u =>
          let param_name := u.value
          let (_, s2) := expect "ID" (some "Expected parameter name") s1
          params_loop fuel (params ++ [some (.parameter param_name none)]) s2
      else .ok params s
    | none => .ok params s

/-- Shared tail of Parser.parse_function after the parameter list: expect
`)` and the braced body (return_type is never populated). -/
def function_body : Nat → String → List (Option Node) → ParserState → PR Node
  | 0, _, _, _ => .out
  | fuel+1, name, params, s =>
    let (_, s1) := expect "RPAREN" (some "Expected ')' after parameters in function declaration") s
    let (_, s2) := expect "LBRACE" (some "Expected '\x7b' to start function body") s1
    pbind (block_loop fuel [] s2) fun body s3 =>
      let (_, s4) := expect "RBRACE" (some "Expected '\x7d' to end function body") s3
      .ok (.functionDecl name params none body) s4

/-- Parser.parse_function. The `self.current_token.value` read for the
function name and the `!= 'RPAREN'` read crash when the stream is
exhausted. -/
def parse_function : Nat → ParserState → PR Node
  | 0, _ => .out
  | fuel+1, s =>
    let (_, s1) := expect "FUNC" none s
    match cur s1 with
    | none => .crash s1
    | some t =>
      let name := t.value
      let (_, s2) := expect "ID" (some "Expected function name after FUNC keyword") s1
      let (_, s3) := expect "LPAREN" (some "Expected '(' after function name in declaration") s2
      match cur s3 with
      | none => .crash s3
      | some u =>
        if u.type ≠ "RPAREN" then
          let param_name := u.value
          let (_, s4) := expect "ID" (some "Expected parameter name") s3
          pbind (params_loop fuel [some (.parameter param_name none)] s4) fun params s5 =>
            function_body fuel name params s5
        else
          function_body fuel name [] s3

/-- Parser.parse_return. -/
def parse_return : Nat → ParserState → PR Node
  | 0, _ => .out
  | fuel+1, s =>
    let (_, s1) := expect "RETURN" none s
    pbind (parse_expression fuel s1) fun e s2 =>
      let (_, s3) := expect "SEMI" (some "Missing ';' after return statement") s2
      .ok (.returnStmt e) s3

end

/-- The state Parser.__init__ builds from a token list and a fresh error
handler. -/
def init (tokens : List Token) : ParserState := ⟨tokens, 0, []⟩

/-- JSON-compatible documents as produced by Parser.to_json and
Parser._serialize_ast: null, numbers, strings, booleans, arrays and
mappings (a Float value keeps its source text, see `Node.float`). -/
inductive JVal where
  | null
  | jint (n : Int)
  | jfloat (v : String)
  | jstr (v : String)
  | jbool (b : Bool)
  | jlist (xs : List JVal)
  | jobj (fields : List (String × JVal))
deriving Repr

/-- An optional string attribute, as JSON: Python `None` becomes null. -/
def optStr : Option String → JVal
  | none => .null
  | some v => .jstr v

mutual

/-- Parser._serialize_ast on a proper node: a mapping whose first field is
"type" followed by the variant-specific fields, in the order the Python
code leaves them. The field holds the node's class name, except that the
VariableDecl and Parameter branches reassign `data["type"]` (lines 363 and
377) with `node.var_type` / `node.param_type`: a Python dict assignment to
an existing key replaces its value in place while the key keeps its
first-insertion position, so the class name is lost there. -/
def serialize_ast : Node → JVal
  | .program statements =>
    .jobj [("type", .jstr "Program"), ("statements", .jlist (serialize_seq statements))]
  | .integer value => .jobj [("type", .jstr "Integer"), ("value", .jint value)]
  | .float value => .jobj [("type", .jstr "Float"), ("value", .jfloat value)]
  | .boolean value => .jobj [("type", .jstr "Boolean"), ("value", .jbool value)]
  | .string value => .jobj [("type", .jstr "String"), ("value", .jstr value)]
  | .binOp op left right =>
    .jobj [("type", .jstr "BinOp"), ("operator", .jstr op),
           ("left", serialize_opt left), ("right", serialize_opt right)]
  | .unaryOp op operand =>
    .jobj [("type", .jstr "UnaryOp"), ("operator", .jstr op),
           ("operand", serialize_opt operand)]
  | .location name => .jobj [("type", .jstr "Location"), ("name", .jstr name)]
  | .functionCall name args =>
    .jobj [("type", .jstr "FunctionCall"), ("name", .jstr name),
           ("arguments", .jlist (serialize_seq args))]
  | .print expr => .jobj [("type", .jstr "Print"), ("expression", serialize_opt expr)]
  | .assignment location expr =>
    .jobj [("type", .jstr "Assignment"), ("target", serialize_opt location),
           ("value", serialize_opt expr)]
  | .ifStmt test consequence alternative =>
    .jobj [("type", .jstr "If"), ("condition", serialize_opt test),
           ("consequence", .jlist (serialize_seq consequence)),
           ("alternative", .jlist (serialize_seq alternative))]
  | .whileStmt test body =>
    .jobj [("type", .jstr "While"), ("condition", serialize_opt test),
           ("body", .jlist (serialize_seq body))]
  | .variableDecl name var_type value =>
    .jobj [("type", optStr var_type), ("name", .jstr name),
           ("initial_value", serialize_opt value)]
  | .constantDecl name value =>
    .jobj [("type", .jstr "ConstantDecl"), ("name", .jstr name),
           ("value", serialize_opt value)]
  | .functionDecl name params return_type body =>
    .jobj [("type", .jstr "FunctionDecl"), ("name", .jstr name),
           ("parameters", .jlist (serialize_seq params)),
           ("return_type", optStr return_type),
           ("body", .jlist (serialize_seq body))]
  | .returnStmt expr => .jobj [("type", .jstr "Return"), ("value", serialize_opt expr)]
  | .parameter name param_type =>
    .jobj [("type", optStr param_type), ("name", .jstr name)]
  | .importDecl module_name =>
    .jobj [("type", .jstr "ImportDecl"), ("module_name", .jstr module_name)]

/-- Parser._serialize_ast's `if node is None: return None` case. -/
def serialize_opt : Option Node → JVal
  | none => .null
  | some n => serialize_ast n

/-- Parser._serialize_ast's `isinstance(node, list)` case: serialize each
element (including the `None` entries, which become null). -/
def serialize_seq : List (Option Node) → List JVal
  | [] => []
  | x :: xs => serialize_opt x :: serialize_seq xs

end

/-- ErrorHandler.has_errors (`Modelled from the spec:` section 4.2's
`hasErrors()`: whether any diagnostic has been recorded). -/
def has_errors (s : ParserState) : Bool := !s.errors.isEmpty

/-- The `{"errors": [...]}` document (`Modelled from the spec:` section 6
fixes the shape of the serialized error entries, `{"message":...,
"line":...}` in detection order; `GOX_error_handler.py` is not among the
sources). -/
def errors_json (es : List (String × ErrLine)) : JVal :=
  .jobj [("errors", .jlist (es.map (fun e =>
    .jobj [("message", .jstr e.1),
           ("line", match e.2 with | .line n => .jint n | .eof => .jstr "End of file")])))]

/-- Parser.to_json: parse, then either the error document (when the sink
holds diagnostics) or the serialized AST. -/
def to_json : Nat → ParserState → PR JVal
  | 0, _ => .out
  | fuel+1, s =>
    pbind (parse fuel s) fun ast s1 =>
      if has_errors s1 then .ok (errors_json s1.errors) s1
      else .ok (serialize_ast ast) s1

/-- The keys of a document's top-level mapping. -/
def topKeys : JVal → List String
  | .jobj fields => fields.map Prod.fst
  | _ => []

/-- Tokens remaining ahead of the cursor. -/
def rem (s : ParserState) : Nat := s.tokens.length - s.pos

/-- Behavioural invariant of one parser outcome relative to its start
state: the token list is never changed, the cursor never moves backwards,
and a crash (a `None` dereference) happens only with the cursor at or past
the end of the stream. -/
def Inv {α : Type} (s : ParserState) (r : PR α) : Prop :=
  (∀ a s', r = .ok a s' → s'.tokens = s.tokens ∧ s.pos ≤ s'.pos) ∧
  (∀ s', r = .crash s' → s'.tokens = s.tokens ∧ s'.tokens.length ≤ s'.pos ∧ s.pos ≤ s'.pos)

/-- A fragment that consumes at least one token whenever it succeeds. -/
def Consumes {α : Type} (s : ParserState) (r : PR α) : Prop :=
  ∀ a s', r = .ok a s' → s.pos < s'.pos

theorem advance_tokens (s : ParserState) : (advance s).tokens = s.tokens := rfl

theorem advance_pos (s : ParserState) : (advance s).pos = s.pos + 1 := rfl

theorem add_error_tokens (m : String) (l : ErrLine) (s : ParserState) :
    (add_error m l s).tokens = s.tokens := rfl

theorem add_error_pos (m : String) (l : ErrLine) (s : ParserState) :
    (add_error m l s).pos = s.pos := rfl

theorem cur_eq_none_iff (s : ParserState) : cur s = none ↔ s.tokens.length ≤ s.pos := by
  simp [cur, List.get?_eq_none]

theorem cur_eq_some_lt {s : ParserState} {t : Token} (h : cur s = some t) :
    s.pos < s.tokens.length := by
  by_contra hlt
  rw [show cur s = none from (cur_eq_none_iff s).2 (by omega)] at h
  exact Option.noConfusion h

theorem expect_tokens (tt : String) (m : Option String) (s : ParserState) :
    ((expect tt m s).2).tokens = s.tokens := by
  unfold expect
  cases cur s with
  | none => rfl
  | some t => by_cases h : t.type = tt <;> simp [h] <;> rfl

theorem expect_pos_ge (tt : String) (m : Option String) (s : ParserState) :
    s.pos ≤ ((expect tt m s).2).pos := by
  unfold expect
  cases cur s with
  | none => simp [add_error]
  | some t => by_cases h : t.type = tt <;> simp [h, advance, add_error]

theorem expect_pos_le (tt : String) (m : Option String) (s : ParserState) :
    ((expect tt m s).2).pos ≤ s.pos + 1 := by
  unfold expect
  cases cur s with
  | none => simp [add_error]
  | some t => by_cases h : t.type = tt <;> simp [h, advance, add_error]

theorem expect_match {s : ParserState} {t : Token} {tt : String} (m : Option String)
    (hc : cur s = some t) (ht : t.type = tt) : expect tt m s = (some t, advance s) := by
  unfold expect
  rw [hc]
  simp [ht]

theorem inv_out {α : Type} (s : ParserState) : Inv s (.out : PR α) := by
  constructor <;> intro _ <;> intros <;> simp_all

theorem inv_ok {α : Type} {s s' : ParserState} (a : α)
    (h1 : s'.tokens = s.tokens) (h2 : s.pos ≤ s'.pos) : Inv s (PR.ok a s') := by
  constructor
  · intro b s'' h
    cases h
    exact ⟨h1, h2⟩
  · intro s'' h
    cases h

theorem inv_crash {α : Type} {s s' : ParserState} (h0 : cur s' = none)
    (h1 : s'.tokens = s.tokens) (h2 : s.pos ≤ s'.pos) :
    Inv s (PR.crash s' : PR α) := by
  constructor
  · intro b s'' h
    cases h
  · intro s'' h
    cases h
    exact ⟨h1, (cur_eq_none_iff s').1 h0, h2⟩

theorem inv_pbind {α β : Type} {s : ParserState} {x : PR α}
    {f : α → ParserState → PR β} (hx : Inv s x)
    (hf : ∀ a s', x = .ok a s' → Inv s' (f a s')) : Inv s (pbind x f) := by
  cases hxx : x with
  | ok a s1 =>
    have h1 := hx.1 a s1 hxx
    have h2 := (hf a s1 hxx)
    constructor
    · intro b s'' h
      have := h2.1 b s'' (by simpa [pbind, hxx] using h)
      exact ⟨this.1.trans h1.1, h1.2.trans this.2⟩
    · intro s'' h
      have := h2.2 s'' (by simpa [pbind, hxx] using h)
      exact ⟨this.1.trans h1.1, this.2.1, h1.2.trans this.2.2⟩
  | crash s1 =>
    have h1 := hx.2 s1 hxx
    constructor
    · intro b s'' h
      simp [pbind, hxx] at h
    · intro s'' h
      simp [pbind, hxx] at h
      cases h
      exact h1
  | out =>
    constructor <;> intro _ <;> intros <;> simp_all [pbind]

theorem pbind_ne_out {α β : Type} {x : PR α} {f : α → ParserState → PR β}
    (hx : x ≠ .out) (hf : ∀ a s', x = .ok a s' → f a s' ≠ .out) :
    pbind x f ≠ .out := by
  cases hxx : x with
  | ok a s1 => simpa [pbind, hxx] using hf a s1 hxx
  | crash s1 => simp [pbind]
  | out => exact absurd hxx hx

theorem pbind_ok {α β : Type} {x : PR α} {f : α → ParserState → PR β}
    {b : β} {s' : ParserState} (h : pbind x f = .ok b s') :
    ∃ a s1, x = .ok a s1 ∧ f a s1 = .ok b s' := by
  cases hxx : x with
  | ok a s1 => exact ⟨a, s1, rfl, by simpa [pbind, hxx] using h⟩
  | crash s1 => simp [pbind, hxx] at h
  | out => simp [pbind, hxx] at h

/-- A fragment that, whenever it succeeds, both moved the cursor forward and
started on an actual token (so the count of remaining tokens strictly
decreased). -/
def ConsumesTok {α : Type} (s : ParserState) (r : PR α) : Prop :=
  ∀ a s', r = .ok a s' → s.pos < s'.pos ∧ s.pos < s.tokens.length

theorem inv_mono {α : Type} {s s0 : ParserState} {x : PR α} (h : Inv s0 x)
    (ht : s0.tokens = s.tokens) (hp : s.pos ≤ s0.pos) : Inv s x := by
  constructor
  · intro a s' hx
    have := h.1 a s' hx
    exact ⟨this.1.trans ht, hp.trans this.2⟩
  · intro s' hx
    have := h.2 s' hx
    exact ⟨this.1.trans ht, this.2.1, hp.trans this.2.2⟩

theorem consumesTok_pbind_left {α β : Type} {s : ParserState} {x : PR α}
    {f : α → ParserState → PR β} (hx : ConsumesTok s x)
    (hf : ∀ a s1, x = .ok a s1 → Inv s1 (f a s1)) : ConsumesTok s (pbind x f) := by
  intro b s' h
  obtain ⟨a, s1, hX, hF⟩ := pbind_ok h
  have h1 := hx a s1 hX
  exact ⟨Nat.lt_of_lt_of_le h1.1 ((hf a s1 hX).1 b s' hF).2, h1.2⟩

theorem consumes_of_consumesTok {α : Type} {s : ParserState} {x : PR α}
    (h : ConsumesTok s x) : Consumes s x :=
  fun a s' hx => (h a s' hx).1

theorem parse_location_inv (s : ParserState) : Inv s (parse_location s) := by
  unfold parse_location
  cases hc : cur s with
  | none => exact inv_crash hc rfl (Nat.le_refl _)
  | some t => exact inv_ok _ (expect_tokens _ _ _) (expect_pos_ge _ _ _)

theorem parse_location_ne_out (s : ParserState) : parse_location s ≠ .out := by
  unfold parse_location
  cases cur s <;> simp

theorem parse_location_consumes {s : ParserState} {t : Token}
    (hc : cur s = some t) (ht : t.type = "ID") : Consumes s (parse_location s) := by
  intro a s' h
  unfold parse_location at h
  rw [hc, expect_match none hc ht] at h
  cases h
  simp [advance]

theorem parse_import_state (s : ParserState) :
    ((parse_import s).2).tokens = s.tokens ∧ s.pos ≤ ((parse_import s).2).pos := by
  unfold parse_import
  rcases h1 : expect "IMPORT" none s with ⟨r1, s1⟩
  have e1t : s1.tokens = s.tokens := by
    have := expect_tokens "IMPORT" none s
    rw [h1] at this
    exact this
  have e1p : s.pos ≤ s1.pos := by
    have := expect_pos_ge "IMPORT" none s
    rw [h1] at this
    exact this
  rcases h2 : expect "ID" (some "Expected module name after IMPORT") s1 with ⟨mt, s2⟩
  have e2t : s2.tokens = s1.tokens := by
    have := expect_tokens "ID" (some "Expected module name after IMPORT") s1
    rw [h2] at this
    exact this
  have e2p : s1.pos ≤ s2.pos := by
    have := expect_pos_ge "ID" (some "Expected module name after IMPORT") s1
    rw [h2] at this
    exact this
  simp only [h1, h2]
  cases mt with
  | none => exact ⟨e2t.trans e1t, e1p.trans e2p⟩
  | some m =>
    rcases h3 : expect "SEMI" (some "Missing ';' after import declaration") s2 with ⟨r3, s3⟩
    have e3t : s3.tokens = s2.tokens := by
      have := expect_tokens "SEMI" (some "Missing ';' after import declaration") s2
      rw [h3] at this
      exact this
    have e3p : s2.pos ≤ s3.pos := by
      have := expect_pos_ge "SEMI" (some "Missing ';' after import declaration") s2
      rw [h3] at this
      exact this
    simp only [h3]
    exact ⟨(e3t.trans e2t).trans e1t, e1p.trans (e2p.trans e3p)⟩

theorem parse_import_consumes {s : ParserState} {t : Token}
    (hc : cur s = some t) (ht : t.type = "IMPORT") :
    s.pos < ((parse_import s).2).pos := by
  unfold parse_import
  rw [expect_match none hc ht]
  rcases h2 : expect "ID" (some "Expected module name after IMPORT") (advance s) with ⟨mt, s2⟩
  have e2p : (advance s).pos ≤ s2.pos := by
    have := expect_pos_ge "ID" (some "Expected module name after IMPORT") (advance s)
    rw [h2] at this
    exact this
  simp only [h2]
  cases mt with
  | none =>
    show s.pos < s2.pos
    simp only [advance] at e2p
    omega
  | some m =>
    rcases h3 : expect "SEMI" (some "Missing ';' after import declaration") s2 with ⟨r3, s3⟩
    have e3p : s2.pos ≤ s3.pos := by
      have := expect_pos_ge "SEMI" (some "Missing ';' after import declaration") s2
      rw [h3] at this
      exact this
    show s.pos < s3.pos
    simp only [advance] at e2p
    omega

theorem decl_finish_inv (c : Bool) (i : String) (vt : Option String)
    (v : Option Node) (s : ParserState) : Inv s (decl_finish c i vt v s) := by
  unfold decl_finish
  cases hc : cur s with
  | none => exact inv_ok _ rfl (Nat.le_refl _)
  | some x =>
    by_cases hx : x.type = "SEMI" <;> simp only [hx, if_true, if_false]
    · exact inv_ok _ rfl (Nat.le_succ _)
    · exact inv_ok _ rfl (Nat.le_refl _)

theorem decl_finish_ne_out (c : Bool) (i : String) (vt : Option String)
    (v : Option Node) (s : ParserState) : decl_finish c i vt v s ≠ .out := by
  unfold decl_finish
  cases cur s with
  | none => simp
  | some x => by_cases hx : x.type = "SEMI" <;> simp [hx]

/-- All invariants of the mutually recursive parser functions at one fuel
value, proved simultaneously by induction on the fuel: the state invariant
`Inv`, strict token consumption where the control flow guarantees it, and
freedom from fuel exhaustion under a bound linear in the remaining input.
The constants order the call graph: a callee's constant is smaller than its
caller's whenever the call can happen without a token having been consumed
first. -/
structure Master (fuel : Nat) : Prop where
  primary : ∀ s, Inv s (parse_primary fuel s) ∧ ConsumesTok s (parse_primary fuel s) ∧
    (32 * rem s + 10 ≤ fuel → parse_primary fuel s ≠ .out)
  unary : ∀ s, Inv s (parse_unary fuel s) ∧ ConsumesTok s (parse_unary fuel s) ∧
    (32 * rem s + 11 ≤ fuel → parse_unary fuel s ≠ .out)
  floop : ∀ node s, Inv s (factor_loop fuel node s) ∧
    (32 * rem s + 12 ≤ fuel → factor_loop fuel node s ≠ .out)
  factor : ∀ s, Inv s (parse_factor fuel s) ∧ ConsumesTok s (parse_factor fuel s) ∧
    (32 * rem s + 13 ≤ fuel → parse_factor fuel s ≠ .out)
  tloop : ∀ node s, Inv s (term_loop fuel node s) ∧
    (32 * rem s + 14 ≤ fuel → term_loop fuel node s ≠ .out)
  term : ∀ s, Inv s (parse_term fuel s) ∧ ConsumesTok s (parse_term fuel s) ∧
    (32 * rem s + 15 ≤ fuel → parse_term fuel s ≠ .out)
  cloop : ∀ node s, Inv s (cmp_loop fuel node s) ∧
    (32 * rem s + 16 ≤ fuel → cmp_loop fuel node s ≠ .out)
  comparison : ∀ s, Inv s (parse_comparison fuel s) ∧ ConsumesTok s (parse_comparison fuel s) ∧
    (32 * rem s + 17 ≤ fuel → parse_comparison fuel s ≠ .out)
  lloop : ∀ node s, Inv s (land_loop fuel node s) ∧
    (32 * rem s + 18 ≤ fuel → land_loop fuel node s ≠ .out)
  logic_and : ∀ s, Inv s (parse_logic_and fuel s) ∧ ConsumesTok s (parse_logic_and fuel s) ∧
    (32 * rem s + 19 ≤ fuel → parse_logic_and fuel s ≠ .out)
  orloop : ∀ node s, Inv s (lor_loop fuel node s) ∧
    (32 * rem s + 20 ≤ fuel → lor_loop fuel node s ≠ .out)
  logic_or : ∀ s, Inv s (parse_logic_or fuel s) ∧ ConsumesTok s (parse_logic_or fuel s) ∧
    (32 * rem s + 21 ≤ fuel → parse_logic_or fuel s ≠ .out)
  expression : ∀ s, Inv s (parse_expression fuel s) ∧ ConsumesTok s (parse_expression fuel s) ∧
    (32 * rem s + 22 ≤ fuel → parse_expression fuel s ≠ .out)
  argsl : ∀ l s, Inv s (args_loop fuel l s) ∧
    (32 * rem s + 23 ≤ fuel → args_loop fuel l s ≠ .out)
  paramsl : ∀ l s, Inv s (params_loop fuel l s) ∧
    (32 * rem s + 5 ≤ fuel → params_loop fuel l s ≠ .out)
  dvalue : ∀ ic ident vt s, Inv s (decl_value fuel ic ident vt s) ∧
    (32 * rem s + 23 ≤ fuel → decl_value fuel ic ident vt s ≠ .out)
  declp : ∀ s, Inv s (parse_declaration fuel s) ∧
    (32 * rem s + 24 ≤ fuel → parse_declaration fuel s ≠ .out) ∧
    Consumes s (parse_declaration fuel s)
  printp : ∀ s, Inv s (parse_print fuel s) ∧
    (32 * rem s + 24 ≤ fuel → parse_print fuel s ≠ .out) ∧
    (∀ t, cur s = some t → t.type = "PRINT" → Consumes s (parse_print fuel s))
  returnp : ∀ s, Inv s (parse_return fuel s) ∧
    (32 * rem s + 24 ≤ fuel → parse_return fuel s ≠ .out) ∧
    (∀ t, cur s = some t → t.type = "RETURN" → Consumes s (parse_return fuel s))
  assignp : ∀ s, Inv s (parse_assignment fuel s) ∧
    (32 * rem s + 24 ≤ fuel → parse_assignment fuel s ≠ .out) ∧
    (∀ t, cur s = some t → t.type = "ID" → Consumes s (parse_assignment fuel s))
  fcallp : ∀ s, Inv s (parse_function_call fuel s) ∧
    (32 * rem s + 24 ≤ fuel → parse_function_call fuel s ≠ .out) ∧
    (∀ t, cur s = some t → t.type = "ID" → Consumes s (parse_function_call fuel s))
  ifp : ∀ s, Inv s (parse_if fuel s) ∧
    (32 * rem s + 24 ≤ fuel → parse_if fuel s ≠ .out) ∧
    (∀ t, cur s = some t → t.type = "IF" → Consumes s (parse_if fuel s))
  whilep : ∀ s, Inv s (parse_while fuel s) ∧
    (32 * rem s + 24 ≤ fuel → parse_while fuel s ≠ .out) ∧
    (∀ t, cur s = some t → t.type = "WHILE" → Consumes s (parse_while fuel s))
  fbody : ∀ name l s, Inv s (function_body fuel name l s) ∧
    (32 * rem s + 27 ≤ fuel → function_body fuel name l s ≠ .out)
  funcp : ∀ s, Inv s (parse_function fuel s) ∧
    (∀ t, cur s = some t → t.type = "FUNC" →
      (32 * rem s + 24 ≤ fuel → parse_function fuel s ≠ .out) ∧
      Consumes s (parse_function fuel s))
  stmt : ∀ s, Inv s (parse_statement fuel s) ∧
    (∀ t, cur s = some t → Consumes s (parse_statement fuel s)) ∧
    (32 * rem s + 25 ≤ fuel → parse_statement fuel s ≠ .out)
  blockl : ∀ l s, Inv s (block_loop fuel l s) ∧
    (32 * rem s + 26 ≤ fuel → block_loop fuel l s ≠ .out)
  loopp : ∀ l s, Inv s (parse_loop fuel l s) ∧
    (∀ a s', parse_loop fuel l s = .ok a s' → s'.tokens.length ≤ s'.pos) ∧
    (32 * rem s + 26 ≤ fuel → parse_loop fuel l s ≠ .out)
  parsep : ∀ s, Inv s (parse fuel s) ∧
    (∀ a s', parse fuel s = .ok a s' → s'.tokens.length ≤ s'.pos) ∧
    (32 * rem s + 27 ≤ fuel → parse fuel s ≠ .out)

theorem consumesTok_crash {α : Type} (s s' : ParserState) :
    ConsumesTok s (PR.crash s' : PR α) := by
  intro a s'' h
  cases h

theorem consumesTok_out {α : Type} (s : ParserState) :
    ConsumesTok s (PR.out : PR α) := by
  intro a s'' h
  cases h

theorem consumesTok_ok {α : Type} {v : α} {s s' : ParserState}
    (h1 : s.pos < s'.pos) (hlt : s.pos < s.tokens.length) :
    ConsumesTok s (PR.ok v s') := by
  intro a s'' h
  cases h
  exact ⟨h1, hlt⟩

theorem ok_ne_out {α : Type} (v : α) (s : ParserState) : PR.ok v s ≠ .out := by
  intro h
  cases h

theorem consumes_crash {α : Type} (s s' : ParserState) :
    Consumes s (PR.crash s' : PR α) := by
  intro a s'' h
  cases h

theorem consumes_out {α : Type} (s : ParserState) : Consumes s (PR.out : PR α) := by
  intro a s'' h
  cases h

theorem consumes_ok {α : Type} {v : α} {s s' : ParserState} (h1 : s.pos < s'.pos) :
    Consumes s (PR.ok v s') := by
  intro a s'' h
  cases h
  exact h1

theorem consumes_pbind_left {α β : Type} {s : ParserState} {x : PR α}
    {f : α → ParserState → PR β} (hx : Consumes s x)
    (hf : ∀ a s1, x = .ok a s1 → Inv s1 (f a s1)) : Consumes s (pbind x f) := by
  intro b s' h
  obtain ⟨a, s1, hX, hF⟩ := pbind_ok h
  exact Nat.lt_of_lt_of_le (hx a s1 hX) ((hf a s1 hX).1 b s' hF).2

theorem expect_match_state {s s1 : ParserState} {t : Token} {tt : String}
    {r : Option Token} (m : Option String) (hc : cur s = some t) (ht : t.type = tt)
    (hE : expect tt m s = (r, s1)) : s1 = advance s := by
  rw [expect_match m hc ht] at hE
  exact (congrArg Prod.snd hE).symm

theorem crash_ne_out {α : Type} (s : ParserState) : (PR.crash s : PR α) ≠ .out := by
  intro h
  cases h

theorem rem_def (s : ParserState) : rem s = s.tokens.length - s.pos := rfl

theorem rem_advance (s : ParserState) :
    rem (advance s) = s.tokens.length - (s.pos + 1) := rfl

theorem rem_advance2 (s : ParserState) :
    rem (advance (advance s)) = s.tokens.length - (s.pos + 2) := rfl

theorem rem_le_of_ok {α : Type} {s s1 : ParserState} {x : PR α} {a : α}
    (hI : Inv s x) (h : x = .ok a s1) : rem s1 ≤ rem s := by
  obtain ⟨ht, hp⟩ := hI.1 a s1 h
  simp only [rem, ht]
  omega

theorem rem_lt_of_ok_tok {α : Type} {s s1 : ParserState} {x : PR α} {a : α}
    (hI : Inv s x) (hC : ConsumesTok s x) (h : x = .ok a s1) :
    rem s1 < rem s := by
  obtain ⟨ht, hp⟩ := hI.1 a s1 h
  obtain ⟨hp2, hlen⟩ := hC a s1 h
  simp only [rem, ht]
  omega

theorem master : ∀ fuel, Master fuel := by
  intro fuel
  induction fuel with
  | zero =>
    refine ⟨?_, ?_, ?_, ?_, ?_, ?_, ?_, ?_, ?_, ?_, ?_, ?_, ?_, ?_, ?_, ?_, ?_, ?_,
      ?_, ?_, ?_, ?_, ?_, ?_, ?_, ?_, ?_, ?_, ?_⟩
    · exact fun s => ⟨inv_out s, consumesTok_out s, fun hb => absurd hb (by omega)⟩
    · exact fun s => ⟨inv_out s, consumesTok_out s, fun hb => absurd hb (by omega)⟩
    · exact fun node s => ⟨inv_out s, fun hb => absurd hb (by omega)⟩
    · exact fun s => ⟨inv_out s, consumesTok_out s, fun hb => absurd hb (by omega)⟩
    · exact fun node s => ⟨inv_out s, fun hb => absurd hb (by omega)⟩
    · exact fun s => ⟨inv_out s, consumesTok_out s, fun hb => absurd hb (by omega)⟩
    · exact fun node s => ⟨inv_out s, fun hb => absurd hb (by omega)⟩
    · exact fun s => ⟨inv_out s, consumesTok_out s, fun hb => absurd hb (by omega)⟩
    · exact fun node s => ⟨inv_out s, fun hb => absurd hb (by omega)⟩
    · exact fun s => ⟨inv_out s, consumesTok_out s, fun hb => absurd hb (by omega)⟩
    · exact fun node s => ⟨inv_out s, fun hb => absurd hb (by omega)⟩
    · exact fun s => ⟨inv_out s, consumesTok_out s, fun hb => absurd hb (by omega)⟩
    · exact fun s => ⟨inv_out s, consumesTok_out s, fun hb => absurd hb (by omega)⟩
    · exact fun l s => ⟨inv_out s, fun hb => absurd hb (by omega)⟩
    · exact fun l s => ⟨inv_out s, fun hb => absurd hb (by omega)⟩
    · exact fun ic ident vt s => ⟨inv_out s, fun hb => absurd hb (by omega)⟩
    · exact fun s => ⟨inv_out s, fun hb => absurd hb (by omega), consumes_out s⟩
    · exact fun s => ⟨inv_out s, fun hb => absurd hb (by omega),
        fun t hc ht => consumes_out s⟩
    · exact fun s => ⟨inv_out s, fun hb => absurd hb (by omega),
        fun t hc ht => consumes_out s⟩
    · exact fun s => ⟨inv_out s, fun hb => absurd hb (by omega),
        fun t hc ht => consumes_out s⟩
    · exact fun s => ⟨inv_out s, fun hb => absurd hb (by omega),
        fun t hc ht => consumes_out s⟩
    · exact fun s => ⟨inv_out s, fun hb => absurd hb (by omega),
        fun t hc ht => consumes_out s⟩
    · exact fun s => ⟨inv_out s, fun hb => absurd hb (by omega),
        fun t hc ht => consumes_out s⟩
    · exact fun name l s => ⟨inv_out s, fun hb => absurd hb (by omega)⟩
    · exact fun s => ⟨inv_out s, fun t hc ht =>
        ⟨fun hb => absurd hb (by omega), consumes_out s⟩⟩
    · exact fun s => ⟨inv_out s, fun t hc => consumes_out s,
        fun hb => absurd hb (by omega)⟩
    · exact fun l s => ⟨inv_out s, fun hb => absurd hb (by omega)⟩
    · intro l s
      refine ⟨inv_out s, ?_, fun hb => absurd hb (by omega)⟩
      intro a s' h
      simp [parse_loop] at h
    · intro s
      refine ⟨inv_out s, ?_, fun hb => absurd hb (by omega)⟩
      intro a s' h
      simp [parse] at h
  | succ fuel ih =>
    have Hprim : ∀ s, Inv s (parse_primary (fuel+1) s) ∧
        ConsumesTok s (parse_primary (fuel+1) s) ∧
        (32 * rem s + 10 ≤ fuel+1 → parse_primary (fuel+1) s ≠ .out) := by
      intro s
      cases hc : cur s with
      | none =>
        simp only [parse_primary, hc]
        exact ⟨inv_crash hc rfl (Nat.le_refl _), consumesTok_crash _ _, fun _ => crash_ne_out _⟩
      | some t =>
        have hlt := cur_eq_some_lt hc
        simp only [parse_primary, hc]
        by_cases h1 : t.type = "INTEGER"
        · rw [if_pos h1]
          exact ⟨inv_ok _ rfl (Nat.le_succ _), consumesTok_ok (Nat.lt_succ_self _) hlt,
            fun _ => ok_ne_out _ _⟩
        rw [if_neg h1]
        by_cases h2 : t.type = "FLOAT"
        · rw [if_pos h2]
          exact ⟨inv_ok _ rfl (Nat.le_succ _), consumesTok_ok (Nat.lt_succ_self _) hlt,
            fun _ => ok_ne_out _ _⟩
        rw [if_neg h2]
        by_cases h3 : t.type = "LPAREN"
        · rw [if_pos h3]
          refine ⟨?_, ?_, ?_⟩
          · refine inv_pbind (inv_mono (ih.expression (advance s)).1 rfl (Nat.le_succ _)) ?_
            intro e s1 _
            exact inv_ok _ (expect_tokens _ _ _) (expect_pos_ge _ _ _)
          · intro a s' h
            obtain ⟨e, s1, hX, hF⟩ := pbind_ok h
            have hE := (ih.expression (advance s)).1.1 e s1 hX
            rcases hR : expect "RPAREN" (some "Missing closing parenthesis") s1 with ⟨r2, s2⟩
            rw [hR] at hF
            cases hF
            have hP := expect_pos_ge "RPAREN" (some "Missing closing parenthesis") s1
            rw [hR] at hP
            have h4 := hE.2
            rw [advance_pos] at h4
            exact ⟨by omega, hlt⟩
          · intro hb
            refine pbind_ne_out ((ih.expression (advance s)).2.2 ?_) ?_
            · have h4 := rem_advance s
              have h5 := rem_def s
              omega
            · intro e s1 _
              exact ok_ne_out _ _
        rw [if_neg h3]
        by_cases h4 : t.type = "ID"
        · rw [if_pos h4]
          cases hc1 : cur (advance s) with
          | none =>
            simp only [hc1]
            exact ⟨inv_ok _ rfl (Nat.le_succ _), consumesTok_ok (Nat.lt_succ_self _) hlt,
            fun _ => ok_ne_out _ _⟩
          | some u =>
            simp only [hc1]
            by_cases hu : u.type = "LPAREN"
            · rw [if_pos hu]
              cases hc2 : cur (advance (advance s)) with
              | none =>
                simp only [hc2]
                exact ⟨inv_crash hc2 rfl (Nat.le_add_right _ 2), consumesTok_crash _ _,
                  fun _ => crash_ne_out _⟩
              | some v =>
                simp only [hc2]
                by_cases hv : v.type = "RPAREN"
                · rw [if_neg (not_not_intro hv)]
                  refine ⟨?_, ?_, ?_⟩
                  · refine inv_ok _ (expect_tokens _ _ _) ?_
                    have h5 := expect_pos_ge "RPAREN"
                      (some "Expected ')' after function arguments") (advance (advance s))
                    have h6 : (advance (advance s)).pos = s.pos + 2 := rfl
                    omega
                  · intro a s' h
                    rcases hR : expect "RPAREN" (some "Expected ')' after function arguments")
                      (advance (advance s)) with ⟨r5, s5⟩
                    rw [hR] at h
                    cases h
                    have h5 := expect_pos_ge "RPAREN"
                      (some "Expected ')' after function arguments") (advance (advance s))
                    rw [hR] at h5
                    have h6 : (advance (advance s)).pos = s.pos + 2 := rfl
                    exact ⟨by omega, hlt⟩
                  · intro _
                    exact ok_ne_out _ _
                · rw [if_pos hv]
                  refine ⟨?_, ?_, ?_⟩
                  · refine inv_pbind (inv_mono (ih.expression (advance (advance s))).1 rfl
                      (Nat.le_add_right _ 2)) ?_
                    intro e s3 _
                    refine inv_pbind (ih.argsl [e] s3).1 ?_
                    intro args s4 _
                    exact inv_ok _ (expect_tokens _ _ _) (expect_pos_ge _ _ _)
                  · intro a s' h
                    obtain ⟨e, s3, hX, hF⟩ := pbind_ok h
                    obtain ⟨args, s4, hA, hF2⟩ := pbind_ok hF
                    have hE := (ih.expression (advance (advance s))).1.1 e s3 hX
                    have hAA := (ih.argsl [e] s3).1.1 args s4 hA
                    rcases hR : expect "RPAREN" (some "Expected ')' after function arguments") s4
                      with ⟨r5, s5⟩
                    rw [hR] at hF2
                    cases hF2
                    have h5 := expect_pos_ge "RPAREN"
                      (some "Expected ')' after function arguments") s4
                    rw [hR] at h5
                    have h3 := hE.2
                    have h6 : (advance (advance s)).pos = s.pos + 2 := rfl
                    exact ⟨by omega, hlt⟩
                  · intro hb
                    refine pbind_ne_out ((ih.expression (advance (advance s))).2.2 ?_) ?_
                    · have h5 := rem_advance2 s
                      have h6 := rem_def s
                      omega
                    · intro e s3 hX
                      have hE1 := rem_lt_of_ok_tok (ih.expression (advance (advance s))).1
                        (ih.expression (advance (advance s))).2.1 hX
                      refine pbind_ne_out ((ih.argsl [e] s3).2 ?_) ?_
                      · have h5 := rem_advance2 s
                        have h6 := rem_def s
                        omega
                      · intro args s4 _
                        exact ok_ne_out _ _
            · rw [if_neg hu]
              exact ⟨inv_ok _ rfl (Nat.le_succ _), consumesTok_ok (Nat.lt_succ_self _) hlt,
            fun _ => ok_ne_out _ _⟩
        rw [if_neg h4]
        by_cases h5 : t.type = "TRUE" ∨ t.type = "FALSE"
        · rw [if_pos h5]
          exact ⟨inv_ok _ rfl (Nat.le_succ _), consumesTok_ok (Nat.lt_succ_self _) hlt,
            fun _ => ok_ne_out _ _⟩
        rw [if_neg h5]
        by_cases h6 : t.type = "STRING"
        · rw [if_pos h6]
          exact ⟨inv_ok _ rfl (Nat.le_succ _), consumesTok_ok (Nat.lt_succ_self _) hlt,
            fun _ => ok_ne_out _ _⟩
        rw [if_neg h6]
        exact ⟨inv_ok _ rfl (Nat.le_succ _), consumesTok_ok (Nat.lt_succ_self _) hlt,
            fun _ => ok_ne_out _ _⟩
    have Huna : ∀ s, Inv s (parse_unary (fuel+1) s) ∧
        ConsumesTok s (parse_unary (fuel+1) s) ∧
        (32 * rem s + 11 ≤ fuel+1 → parse_unary (fuel+1) s ≠ .out) := by
      intro s
      cases hc : cur s with
      | none =>
        simp only [parse_unary, hc]
        exact ⟨(ih.primary s).1, (ih.primary s).2.1,
          fun hb => (ih.primary s).2.2 (by omega)⟩
      | some t =>
        have hlt := cur_eq_some_lt hc
        simp only [parse_unary, hc]
        by_cases h1 : t.type ∈ (["PLUS", "MINUS", "NOT", "DEREF"] : List String)
        · rw [if_pos h1]
          refine ⟨?_, ?_, ?_⟩
          · refine inv_pbind (inv_mono (ih.primary (advance s)).1 rfl (Nat.le_succ _)) ?_
            intro p s1 _
            exact inv_ok _ rfl (Nat.le_refl _)
          · intro a s' h
            obtain ⟨p, s1, hX, hF⟩ := pbind_ok h
            have hP := ((ih.primary (advance s)).1.1 p s1 hX).2
            rw [advance_pos] at hP
            cases hF
            exact ⟨by omega, hlt⟩
          · intro hb
            refine pbind_ne_out ((ih.primary (advance s)).2.2 ?_) ?_
            · have h4 := rem_advance s
              have h5 := rem_def s
              omega
            · intro p s1 _
              simp
        · rw [if_neg h1]
          exact ⟨(ih.primary s).1, (ih.primary s).2.1,
            fun hb => (ih.primary s).2.2 (by omega)⟩
    have Hfloop : ∀ node s, Inv s (factor_loop (fuel+1) node s) ∧
        (32 * rem s + 12 ≤ fuel+1 → factor_loop (fuel+1) node s ≠ .out) := by
      intro node s
      cases hc : cur s with
      | none =>
        simp only [factor_loop, hc]
        exact ⟨inv_ok _ rfl (Nat.le_refl _), fun _ => ok_ne_out _ _⟩
      | some t =>
        have hlt := cur_eq_some_lt hc
        simp only [factor_loop, hc]
        by_cases h1 : t.type ∈ (["TIMES", "DIVIDE", "MOD", "INT_DIV"] : List String)
        · rw [if_pos h1]
          refine ⟨?_, ?_⟩
          · refine inv_pbind (inv_mono (ih.unary (advance s)).1 rfl (Nat.le_succ _)) ?_
            intro r s1 _
            exact inv_mono (ih.floop _ s1).1 rfl (Nat.le_refl _)
          · intro hb
            refine pbind_ne_out ((ih.unary (advance s)).2.2 ?_) ?_
            · have h4 := rem_advance s
              have h5 := rem_def s
              omega
            · intro r s1 hX
              refine (ih.floop _ s1).2 ?_
              have h4 := rem_le_of_ok (ih.unary (advance s)).1 hX
              have h5 := rem_advance s
              have h6 := rem_def s
              omega
        · rw [if_neg h1]
          exact ⟨inv_ok _ rfl (Nat.le_refl _), fun _ => ok_ne_out _ _⟩
    have Hfact : ∀ s, Inv s (parse_factor (fuel+1) s) ∧
        ConsumesTok s (parse_factor (fuel+1) s) ∧
        (32 * rem s + 13 ≤ fuel+1 → parse_factor (fuel+1) s ≠ .out) := by
      intro s
      simp only [parse_factor]
      refine ⟨inv_pbind (ih.unary s).1 (fun n s1 _ => (ih.floop n s1).1),
        consumesTok_pbind_left (ih.unary s).2.1 (fun n s1 _ => (ih.floop n s1).1), ?_⟩
      intro hb
      refine pbind_ne_out ((ih.unary s).2.2 (by omega)) ?_
      intro n s1 hX
      refine (ih.floop n s1).2 ?_
      have h4 := rem_le_of_ok (ih.unary s).1 hX
      omega
    have Htloop : ∀ node s, Inv s (term_loop (fuel+1) node s) ∧
        (32 * rem s + 14 ≤ fuel+1 → term_loop (fuel+1) node s ≠ .out) := by
      intro node s
      cases hc : cur s with
      | none =>
        simp only [term_loop, hc]
        exact ⟨inv_ok _ rfl (Nat.le_refl _), fun _ => ok_ne_out _ _⟩
      | some t =>
        have hlt := cur_eq_some_lt hc
        simp only [term_loop, hc]
        by_cases h1 : t.type ∈ (["PLUS", "MINUS"] : List String)
        · rw [if_pos h1]
          refine ⟨?_, ?_⟩
          · refine inv_pbind (inv_mono (ih.factor (advance s)).1 rfl (Nat.le_succ _)) ?_
            intro r s1 _
            exact inv_mono (ih.tloop _ s1).1 rfl (Nat.le_refl _)
          · intro hb
            refine pbind_ne_out ((ih.factor (advance s)).2.2 ?_) ?_
            · have h4 := rem_advance s
              have h5 := rem_def s
              omega
            · intro r s1 hX
              refine (ih.tloop _ s1).2 ?_
              have h4 := rem_le_of_ok (ih.factor (advance s)).1 hX
              have h5 := rem_advance s
              have h6 := rem_def s
              omega
        · rw [if_neg h1]
          exact ⟨inv_ok _ rfl (Nat.le_refl _), fun _ => ok_ne_out _ _⟩
    have Hterm : ∀ s, Inv s (parse_term (fuel+1) s) ∧
        ConsumesTok s (parse_term (fuel+1) s) ∧
        (32 * rem s + 15 ≤ fuel+1 → parse_term (fuel+1) s ≠ .out) := by
      intro s
      simp only [parse_term]
      refine ⟨inv_pbind (ih.factor s).1 (fun n s1 _ => (ih.tloop n s1).1),
        consumesTok_pbind_left (ih.factor s).2.1 (fun n s1 _ => (ih.tloop n s1).1), ?_⟩
      intro hb
      refine pbind_ne_out ((ih.factor s).2.2 (by omega)) ?_
      intro n s1 hX
      refine (ih.tloop n s1).2 ?_
      have h4 := rem_le_of_ok (ih.factor s).1 hX
      omega
    have Hcloop : ∀ node s, Inv s (cmp_loop (fuel+1) node s) ∧
        (32 * rem s + 16 ≤ fuel+1 → cmp_loop (fuel+1) node s ≠ .out) := by
      intro node s
      cases hc : cur s with
      | none =>
        simp only [cmp_loop, hc]
        exact ⟨inv_ok _ rfl (Nat.le_refl _), fun _ => ok_ne_out _ _⟩
      | some t =>
        have hlt := cur_eq_some_lt hc
        simp only [cmp_loop, hc]
        by_cases h1 : t.type ∈ (["LT", "GT", "LE", "GE", "EQ", "NE"] : List String)
        · rw [if_pos h1]
          refine ⟨?_, ?_⟩
          · refine inv_pbind (inv_mono (ih.term (advance s)).1 rfl (Nat.le_succ _)) ?_
            intro r s1 _
            exact inv_mono (ih.cloop _ s1).1 rfl (Nat.le_refl _)
          · intro hb
            refine pbind_ne_out ((ih.term (advance s)).2.2 ?_) ?_
            · have h4 := rem_advance s
              have h5 := rem_def s
              omega
            · intro r s1 hX
              refine (ih.cloop _ s1).2 ?_
              have h4 := rem_le_of_ok (ih.term (advance s)).1 hX
              have h5 := rem_advance s
              have h6 := rem_def s
              omega
        · rw [if_neg h1]
          exact ⟨inv_ok _ rfl (Nat.le_refl _), fun _ => ok_ne_out _ _⟩
    have Hcomp : ∀ s, Inv s (parse_comparison (fuel+1) s) ∧
        ConsumesTok s (parse_comparison (fuel+1) s) ∧
        (32 * rem s + 17 ≤ fuel+1 → parse_comparison (fuel+1) s ≠ .out) := by
      intro s
      simp only [parse_comparison]
      refine ⟨inv_pbind (ih.term s).1 (fun n s1 _ => (ih.cloop n s1).1),
        consumesTok_pbind_left (ih.term s).2.1 (fun n s1 _ => (ih.cloop n s1).1), ?_⟩
      intro hb
      refine pbind_ne_out ((ih.term s).2.2 (by omega)) ?_
      intro n s1 hX
      refine (ih.cloop n s1).2 ?_
      have h4 := rem_le_of_ok (ih.term s).1 hX
      omega
    have Hlloop : ∀ node s, Inv s (land_loop (fuel+1) node s) ∧
        (32 * rem s + 18 ≤ fuel+1 → land_loop (fuel+1) node s ≠ .out) := by
      intro node s
      cases hc : cur s with
      | none =>
        simp only [land_loop, hc]
        exact ⟨inv_ok _ rfl (Nat.le_refl _), fun _ => ok_ne_out _ _⟩
      | some t =>
        have hlt := cur_eq_some_lt hc
        simp only [land_loop, hc]
        by_cases h1 : t.type = "LAND"
        · rw [if_pos h1]
          refine ⟨?_, ?_⟩
          · refine inv_pbind (inv_mono (ih.comparison (advance s)).1 rfl (Nat.le_succ _)) ?_
            intro r s1 _
            exact inv_mono (ih.lloop _ s1).1 rfl (Nat.le_refl _)
          · intro hb
            refine pbind_ne_out ((ih.comparison (advance s)).2.2 ?_) ?_
            · have h4 := rem_advance s
              have h5 := rem_def s
              omega
            · intro r s1 hX
              refine (ih.lloop _ s1).2 ?_
              have h4 := rem_le_of_ok (ih.comparison (advance s)).1 hX
              have h5 := rem_advance s
              have h6 := rem_def s
              omega
        · rw [if_neg h1]
          exact ⟨inv_ok _ rfl (Nat.le_refl _), fun _ => ok_ne_out _ _⟩
    have Hland : ∀ s, Inv s (parse_logic_and (fuel+1) s) ∧
        ConsumesTok s (parse_logic_and (fuel+1) s) ∧
        (32 * rem s + 19 ≤ fuel+1 → parse_logic_and (fuel+1) s ≠ .out) := by
      intro s
      simp only [parse_logic_and]
      refine ⟨inv_pbind (ih.comparison s).1 (fun n s1 _ => (ih.lloop n s1).1),
        consumesTok_pbind_left (ih.comparison s).2.1 (fun n s1 _ => (ih.lloop n s1).1), ?_⟩
      intro hb
      refine pbind_ne_out ((ih.comparison s).2.2 (by omega)) ?_
      intro n s1 hX
      refine (ih.lloop n s1).2 ?_
      have h4 := rem_le_of_ok (ih.comparison s).1 hX
      omega
    have Horloop : ∀ node s, Inv s (lor_loop (fuel+1) node s) ∧
        (32 * rem s + 20 ≤ fuel+1 → lor_loop (fuel+1) node s ≠ .out) := by
      intro node s
      cases hc : cur s with
      | none =>
        simp only [lor_loop, hc]
        exact ⟨inv_ok _ rfl (Nat.le_refl _), fun _ => ok_ne_out _ _⟩
      | some t =>
        have hlt := cur_eq_some_lt hc
        simp only [lor_loop, hc]
        by_cases h1 : t.type = "LOR"
        · rw [if_pos h1]
          refine ⟨?_, ?_⟩
          · refine inv_pbind (inv_mono (ih.logic_and (advance s)).1 rfl (Nat.le_succ _)) ?_
            intro r s1 _
            exact inv_mono (ih.orloop _ s1).1 rfl (Nat.le_refl _)
          · intro hb
            refine pbind_ne_out ((ih.logic_and (advance s)).2.2 ?_) ?_
            · have h4 := rem_advance s
              have h5 := rem_def s
              omega
            · intro r s1 hX
              refine (ih.orloop _ s1).2 ?_
              have h4 := rem_le_of_ok (ih.logic_and (advance s)).1 hX
              have h5 := rem_advance s
              have h6 := rem_def s
              omega
        · rw [if_neg h1]
          exact ⟨inv_ok _ rfl (Nat.le_refl _), fun _ => ok_ne_out _ _⟩
    have Hlor : ∀ s, Inv s (parse_logic_or (fuel+1) s) ∧
        ConsumesTok s (parse_logic_or (fuel+1) s) ∧
        (32 * rem s + 21 ≤ fuel+1 → parse_logic_or (fuel+1) s ≠ .out) := by
      intro s
      simp only [parse_logic_or]
      refine ⟨inv_pbind (ih.logic_and s).1 (fun n s1 _ => (ih.orloop n s1).1),
        consumesTok_pbind_left (ih.logic_and s).2.1 (fun n s1 _ => (ih.orloop n s1).1), ?_⟩
      intro hb
      refine pbind_ne_out ((ih.logic_and s).2.2 (by omega)) ?_
      intro n s1 hX
      refine (ih.orloop n s1).2 ?_
      have h4 := rem_le_of_ok (ih.logic_and s).1 hX
      omega
    have Hexpr : ∀ s, Inv s (parse_expression (fuel+1) s) ∧
        ConsumesTok s (parse_expression (fuel+1) s) ∧
        (32 * rem s + 22 ≤ fuel+1 → parse_expression (fuel+1) s ≠ .out) := by
      intro s
      simp only [parse_expression]
      exact ⟨(ih.logic_or s).1, (ih.logic_or s).2.1,
        fun hb => (ih.logic_or s).2.2 (by omega)⟩
    have Hargs : ∀ l s, Inv s (args_loop (fuel+1) l s) ∧
        (32 * rem s + 23 ≤ fuel+1 → args_loop (fuel+1) l s ≠ .out) := by
      intro l s
      cases hc : cur s with
      | none =>
        simp only [args_loop, hc]
        exact ⟨inv_ok _ rfl (Nat.le_refl _), fun _ => ok_ne_out _ _⟩
      | some t =>
        have hlt := cur_eq_some_lt hc
        simp only [args_loop, hc]
        by_cases h1 : t.type = "COMMA"
        · rw [if_pos h1]
          refine ⟨?_, ?_⟩
          · refine inv_pbind (inv_mono (ih.expression (advance s)).1 rfl (Nat.le_succ _)) ?_
            intro a s1 _
            exact inv_mono (ih.argsl _ s1).1 rfl (Nat.le_refl _)
          · intro hb
            refine pbind_ne_out ((ih.expression (advance s)).2.2 ?_) ?_
            · have h4 := rem_advance s
              have h5 := rem_def s
              omega
            · intro a s1 hX
              refine (ih.argsl _ s1).2 ?_
              have h4 := rem_le_of_ok (ih.expression (advance s)).1 hX
              have h5 := rem_advance s
              have h6 := rem_def s
              omega
        · rw [if_neg h1]
          exact ⟨inv_ok _ rfl (Nat.le_refl _), fun _ => ok_ne_out _ _⟩
    have Hparams : ∀ l s, Inv s (params_loop (fuel+1) l s) ∧
        (32 * rem s + 5 ≤ fuel+1 → params_loop (fuel+1) l s ≠ .out) := by
      intro l s
      cases hc : cur s with
      | none =>
        simp only [params_loop, hc]
        exact ⟨inv_ok _ rfl (Nat.le_refl _), fun _ => ok_ne_out _ _⟩
      | some t =>
        have hlt := cur_eq_some_lt hc
        simp only [params_loop, hc]
        by_cases h1 : t.type = "COMMA"
        · rw [if_pos h1]
          cases hc1 : cur (advance s) with
          | none =>
            simp only [hc1]
            exact ⟨inv_crash hc1 rfl (Nat.le_succ _), fun _ => crash_ne_out _⟩
          | some u =>
            simp only [hc1]
            rcases hE : expect "ID" (some "Expected parameter name") (advance s) with ⟨r2, s2⟩
            have ht2 : s2.tokens = s.tokens := by
              have := expect_tokens "ID" (some "Expected parameter name") (advance s)
              rw [hE] at this
              exact this
            have hp2 : s.pos + 1 ≤ s2.pos := by
              have := expect_pos_ge "ID" (some "Expected parameter name") (advance s)
              rw [hE] at this
              exact this
            refine ⟨inv_mono (ih.paramsl _ s2).1 ht2 (by omega), ?_⟩
            intro hb
            refine (ih.paramsl _ s2).2 ?_
            have h4 := rem_def s
            have h5 := rem_def s2
            rw [ht2] at h5
            omega
        · rw [if_neg h1]
          exact ⟨inv_ok _ rfl (Nat.le_refl _), fun _ => ok_ne_out _ _⟩
    have Hdval : ∀ ic ident vt s, Inv s (decl_value (fuel+1) ic ident vt s) ∧
        (32 * rem s + 23 ≤ fuel+1 → decl_value (fuel+1) ic ident vt s ≠ .out) := by
      intro ic ident vt s
      cases hc : cur s with
      | none =>
        simp only [decl_value, hc]
        exact ⟨decl_finish_inv _ _ _ _ _, fun _ => decl_finish_ne_out _ _ _ _ _⟩
      | some w =>
        have hlt := cur_eq_some_lt hc
        simp only [decl_value, hc]
        by_cases h1 : w.type = "ASSIGN"
        · rw [if_pos h1]
          refine ⟨?_, ?_⟩
          · refine inv_pbind (inv_mono (ih.expression (advance s)).1 rfl (Nat.le_succ _)) ?_
            intro value s4 _
            exact decl_finish_inv _ _ _ _ _
          · intro hb
            refine pbind_ne_out ((ih.expression (advance s)).2.2 ?_) ?_
            · have h4 := rem_advance s
              have h5 := rem_def s
              omega
            · intro value s4 _
              exact decl_finish_ne_out _ _ _ _ _
        · rw [if_neg h1]
          exact ⟨decl_finish_inv _ _ _ _ _, fun _ => decl_finish_ne_out _ _ _ _ _⟩
    have Hdecl : ∀ s, Inv s (parse_declaration (fuel+1) s) ∧
        (32 * rem s + 24 ≤ fuel+1 → parse_declaration (fuel+1) s ≠ .out) ∧
        Consumes s (parse_declaration (fuel+1) s) := by
      intro s
      cases hc : cur s with
      | none =>
        simp only [parse_declaration, hc]
        exact ⟨inv_crash hc rfl (Nat.le_refl _), fun _ => crash_ne_out _, consumes_crash _ _⟩
      | some t =>
        have hlt := cur_eq_some_lt hc
        simp only [parse_declaration, hc]
        cases hc1 : cur (advance s) with
        | none =>
          simp only [hc1]
          exact ⟨inv_crash hc1 rfl (Nat.le_succ _), fun _ => crash_ne_out _,
            consumes_crash _ _⟩
        | some u =>
          simp only [hc1]
          rcases hE : expect "ID" (some "Expected identifier in declaration") (advance s)
            with ⟨r2, s2⟩
          have ht2 : s2.tokens = s.tokens := by
            have := expect_tokens "ID" (some "Expected identifier in declaration") (advance s)
            rw [hE] at this
            exact this
          have hp2 : s.pos + 1 ≤ s2.pos := by
            have := expect_pos_ge "ID" (some "Expected identifier in declaration") (advance s)
            rw [hE] at this
            exact this
          have hbound : 32 * rem s + 24 ≤ fuel + 1 → 32 * rem s2 + 23 ≤ fuel := by
            intro hb
            have h4 := rem_def s
            have h5 := rem_def s2
            rw [ht2] at h5
            omega
          have hboundA : 32 * rem s + 24 ≤ fuel + 1 → 32 * rem (advance s2) + 23 ≤ fuel := by
            intro hb
            have h4 := rem_def s
            have h5 := rem_advance s2
            rw [ht2] at h5
            omega
          cases hc2 : cur s2 with
          | none =>
            simp only [hc2]
            refine ⟨inv_mono (ih.dvalue _ _ _ s2).1 ht2 (by omega), ?_, ?_⟩
            · intro hb
              exact (ih.dvalue _ _ _ s2).2 (hbound hb)
            · intro a s' h
              have := ((ih.dvalue _ _ _ s2).1).1 a s' h
              omega
          | some v =>
            simp only [hc2]
            by_cases hv : v.type = "ID"
            · rw [if_pos hv]
              have hadv := advance_pos s2
              refine ⟨inv_mono (ih.dvalue _ _ _ (advance s2)).1
                ((advance_tokens s2).trans ht2) (by omega), ?_, ?_⟩
              · intro hb
                exact (ih.dvalue _ _ _ (advance s2)).2 (hboundA hb)
              · intro a s' h
                have := ((ih.dvalue _ _ _ (advance s2)).1).1 a s' h
                omega
            · rw [if_neg hv]
              refine ⟨inv_mono (ih.dvalue _ _ _ s2).1 ht2 (by omega), ?_, ?_⟩
              · intro hb
                exact (ih.dvalue _ _ _ s2).2 (hbound hb)
              · intro a s' h
                have := ((ih.dvalue _ _ _ s2).1).1 a s' h
                omega
    have Hprint : ∀ s, Inv s (parse_print (fuel+1) s) ∧
        (32 * rem s + 24 ≤ fuel+1 → parse_print (fuel+1) s ≠ .out) ∧
        (∀ t, cur s = some t → t.type = "PRINT" → Consumes s (parse_print (fuel+1) s)) := by
      intro s
      simp only [parse_print]
      rcases hP : expect "PRINT" none s with ⟨r1, s1⟩
      have ht1 : s1.tokens = s.tokens := by
        have := expect_tokens "PRINT" none s
        rw [hP] at this
        exact this
      have hp1 : s.pos ≤ s1.pos := by
        have := expect_pos_ge "PRINT" none s
        rw [hP] at this
        exact this
      refine ⟨?_, ?_, ?_⟩
      · refine inv_pbind (inv_mono (ih.expression s1).1 ht1 hp1) ?_
        intro e s2 _
        rcases hS : expect "SEMI" (some "Missing ';' after print statement") s2 with ⟨r3, s3⟩
        have ht3 : s3.tokens = s2.tokens := by
          have := expect_tokens "SEMI" (some "Missing ';' after print statement") s2
          rw [hS] at this
          exact this
        have hp3 : s2.pos ≤ s3.pos := by
          have := expect_pos_ge "SEMI" (some "Missing ';' after print statement") s2
          rw [hS] at this
          exact this
        exact inv_ok _ ht3 hp3
      · intro hb
        refine pbind_ne_out ((ih.expression s1).2.2 ?_) ?_
        · have h4 := rem_def s
          have h5 := rem_def s1
          rw [ht1] at h5
          omega
        · intro e s2 _
          rcases hS : expect "SEMI" (some "Missing ';' after print statement") s2 with ⟨r3, s3⟩
          exact ok_ne_out _ _
      · intro t hc ht
        have e1 := expect_match_state none hc ht hP
        subst e1
        intro a s' h
        obtain ⟨e, s2, hX, hF⟩ := pbind_ok h
        have hE := ((ih.expression (advance s)).1).1 e s2 hX
        rcases hS : expect "SEMI" (some "Missing ';' after print statement") s2 with ⟨r3, s3⟩
        rw [hS] at hF
        cases hF
        have hp3 : s2.pos ≤ s3.pos := by
          have := expect_pos_ge "SEMI" (some "Missing ';' after print statement") s2
          rw [hS] at this
          exact this
        have hn3 : (r3, s3).2.pos = s3.pos := rfl
        have hadv := advance_pos s
        omega
    have Hret : ∀ s, Inv s (parse_return (fuel+1) s) ∧
        (32 * rem s + 24 ≤ fuel+1 → parse_return (fuel+1) s ≠ .out) ∧
        (∀ t, cur s = some t → t.type = "RETURN" → Consumes s (parse_return (fuel+1) s)) := by
      intro s
      simp only [parse_return]
      rcases hP : expect "RETURN" none s with ⟨r1, s1⟩
      have ht1 : s1.tokens = s.tokens := by
        have := expect_tokens "RETURN" none s
        rw [hP] at this
        exact this
      have hp1 : s.pos ≤ s1.pos := by
        have := expect_pos_ge "RETURN" none s
        rw [hP] at this
        exact this
      refine ⟨?_, ?_, ?_⟩
      · refine inv_pbind (inv_mono (ih.expression s1).1 ht1 hp1) ?_
        intro e s2 _
        rcases hS : expect "SEMI" (some "Missing ';' after return statement") s2 with ⟨r3, s3⟩
        have ht3 : s3.tokens = s2.tokens := by
          have := expect_tokens "SEMI" (some "Missing ';' after return statement") s2
          rw [hS] at this
          exact this
        have hp3 : s2.pos ≤ s3.pos := by
          have := expect_pos_ge "SEMI" (some "Missing ';' after return statement") s2
          rw [hS] at this
          exact this
        exact inv_ok _ ht3 hp3
      · intro hb
        refine pbind_ne_out ((ih.expression s1).2.2 ?_) ?_
        · have h4 := rem_def s
          have h5 := rem_def s1
          rw [ht1] at h5
          omega
        · intro e s2 _
          rcases hS : expect "SEMI" (some "Missing ';' after return statement") s2 with ⟨r3, s3⟩
          exact ok_ne_out _ _
      · intro t hc ht
        have e1 := expect_match_state none hc ht hP
        subst e1
        intro a s' h
        obtain ⟨e, s2, hX, hF⟩ := pbind_ok h
        have hE := ((ih.expression (advance s)).1).1 e s2 hX
        rcases hS : expect "SEMI" (some "Missing ';' after return statement") s2 with ⟨r3, s3⟩
        rw [hS] at hF
        cases hF
        have hp3 : s2.pos ≤ s3.pos := by
          have := expect_pos_ge "SEMI" (some "Missing ';' after return statement") s2
          rw [hS] at this
          exact this
        have hn3 : (r3, s3).2.pos = s3.pos := rfl
        have hadv := advance_pos s
        omega
    have Hasg : ∀ s, Inv s (parse_assignment (fuel+1) s) ∧
        (32 * rem s + 24 ≤ fuel+1 → parse_assignment (fuel+1) s ≠ .out) ∧
        (∀ t, cur s = some t → t.type = "ID" → Consumes s (parse_assignment (fuel+1) s)) := by
      intro s
      simp only [parse_assignment]
      refine ⟨?_, ?_, ?_⟩
      · refine inv_pbind (parse_location_inv s) ?_
        intro loc s1 _
        rcases hA : expect "ASSIGN" (some "Missing '=' in assignment") s1 with ⟨r2, s2⟩
        have ht2 : s2.tokens = s1.tokens := by
          have := expect_tokens "ASSIGN" (some "Missing '=' in assignment") s1
          rw [hA] at this
          exact this
        have hp2 : s1.pos ≤ s2.pos := by
          have := expect_pos_ge "ASSIGN" (some "Missing '=' in assignment") s1
          rw [hA] at this
          exact this
        refine inv_pbind (inv_mono (ih.expression s2).1 ht2 hp2) ?_
        intro e s3 _
        rcases hS : expect "SEMI" (some "Missing ';' after assignment") s3 with ⟨r4, s4⟩
        have ht4 : s4.tokens = s3.tokens := by
          have := expect_tokens "SEMI" (some "Missing ';' after assignment") s3
          rw [hS] at this
          exact this
        have hp4 : s3.pos ≤ s4.pos := by
          have := expect_pos_ge "SEMI" (some "Missing ';' after assignment") s3
          rw [hS] at this
          exact this
        exact inv_ok _ ht4 hp4
      · intro hb
        refine pbind_ne_out (parse_location_ne_out s) ?_
        intro loc s1 hL
        have hLI := (parse_location_inv s).1 loc s1 hL
        rcases hA : expect "ASSIGN" (some "Missing '=' in assignment") s1 with ⟨r2, s2⟩
        have ht2 : s2.tokens = s1.tokens := by
          have := expect_tokens "ASSIGN" (some "Missing '=' in assignment") s1
          rw [hA] at this
          exact this
        have hp2 : s1.pos ≤ s2.pos := by
          have := expect_pos_ge "ASSIGN" (some "Missing '=' in assignment") s1
          rw [hA] at this
          exact this
        refine pbind_ne_out ((ih.expression s2).2.2 ?_) ?_
        · have h4 := rem_def s
          have h5 := rem_def s2
          rw [ht2, hLI.1] at h5
          omega
        · intro e s3 _
          rcases hS : expect "SEMI" (some "Missing ';' after assignment") s3 with ⟨r4, s4⟩
          exact ok_ne_out _ _
      · intro t hc ht
        intro a s' h
        obtain ⟨loc, s1, hL, hF⟩ := pbind_ok h
        have hLC := parse_location_consumes hc ht loc s1 hL
        rcases hA : expect "ASSIGN" (some "Missing '=' in assignment") s1 with ⟨r2, s2⟩
        rw [hA] at hF
        have hp2 : s1.pos ≤ s2.pos := by
          have := expect_pos_ge "ASSIGN" (some "Missing '=' in assignment") s1
          rw [hA] at this
          exact this
        obtain ⟨e, s3, hX, hF2⟩ := pbind_ok hF
        have hE3 := ((ih.expression _).1).1 e s3 hX
        rcases hS : expect "SEMI" (some "Missing ';' after assignment") s3 with ⟨r4, s4⟩
        rw [hS] at hF2
        cases hF2
        have hp4 : s3.pos ≤ s4.pos := by
          have := expect_pos_ge "SEMI" (some "Missing ';' after assignment") s3
          rw [hS] at this
          exact this
        have hn2 : (r2, s2).2.pos = s2.pos := rfl
        have hn4 : (r4, s4).2.pos = s4.pos := rfl
        have hE3p := hE3.2
        omega
    have Hfcl : ∀ s, Inv s (parse_function_call (fuel+1) s) ∧
        (32 * rem s + 24 ≤ fuel+1 → parse_function_call (fuel+1) s ≠ .out) ∧
        (∀ t, cur s = some t → t.type = "ID" →
          Consumes s (parse_function_call (fuel+1) s)) := by
      intro s
      cases hc : cur s with
      | none =>
        simp only [parse_function_call, hc]
        refine ⟨inv_crash hc rfl (Nat.le_refl _), fun _ => crash_ne_out _, ?_⟩
        intro t hct
        cases hct
      | some t =>
        have hlt := cur_eq_some_lt hc
        simp only [parse_function_call, hc]
        rcases hE1 : expect "ID" (some "Expected function name") s with ⟨r1, s1⟩
        have ht1 : s1.tokens = s.tokens := by
          have := expect_tokens "ID" (some "Expected function name") s
          rw [hE1] at this
          exact this
        have hp1 : s.pos ≤ s1.pos := by
          have := expect_pos_ge "ID" (some "Expected function name") s
          rw [hE1] at this
          exact this
        rcases hE2 : expect "LPAREN" (some "Expected '(' after function name") s1 with ⟨r2, s2⟩
        have ht2 : s2.tokens = s1.tokens := by
          have := expect_tokens "LPAREN" (some "Expected '(' after function name") s1
          rw [hE2] at this
          exact this
        have hp2 : s1.pos ≤ s2.pos := by
          have := expect_pos_ge "LPAREN" (some "Expected '(' after function name") s1
          rw [hE2] at this
          exact this
        have hcons1 : t.type = "ID" → s.pos + 1 ≤ s1.pos := by
          intro htt
          have := expect_match_state (some "Expected function name") hc htt hE1
          rw [this, advance_pos]
        cases hc2 : cur s2 with
        | none =>
          simp only [hc2]
          refine ⟨inv_crash hc2 (ht2.trans ht1) (hp1.trans hp2), fun _ => crash_ne_out _, ?_⟩
          intro t' hct' htt'
          exact consumes_crash _ _
        | some u =>
          simp only [hc2]
          by_cases hr : u.type = "RPAREN"
          · rw [if_neg (not_not_intro hr)]
            rcases hR : expect "RPAREN" (some "Expected ')' after function arguments") s2
              with ⟨r5, s5⟩
            have ht5 : s5.tokens = s2.tokens := by
              have := expect_tokens "RPAREN" (some "Expected ')' after function arguments") s2
              rw [hR] at this
              exact this
            have hp5 : s2.pos ≤ s5.pos := by
              have := expect_pos_ge "RPAREN" (some "Expected ')' after function arguments") s2
              rw [hR] at this
              exact this
            rcases hS : expect "SEMI" (some "Missing ';' after function call") s5 with ⟨r6, s6⟩
            have ht6 : s6.tokens = s5.tokens := by
              have := expect_tokens "SEMI" (some "Missing ';' after function call") s5
              rw [hS] at this
              exact this
            have hp6 : s5.pos ≤ s6.pos := by
              have := expect_pos_ge "SEMI" (some "Missing ';' after function call") s5
              rw [hS] at this
              exact this
            have hn6 : (r6, s6).2.pos = s6.pos := rfl
            refine ⟨inv_ok _ (((ht6.trans ht5).trans ht2).trans ht1) (by omega),
              fun _ => ok_ne_out _ _, ?_⟩
            intro t' hct' htt'
            cases hct'
            have hcc := hcons1 htt'
            exact consumes_ok (by omega)
          · rw [if_pos hr]
            refine ⟨?_, ?_, ?_⟩
            · refine inv_pbind (inv_mono (ih.expression s2).1 (ht2.trans ht1)
                (hp1.trans hp2)) ?_
              intro e s3 _
              refine inv_pbind (ih.argsl _ s3).1 ?_
              intro args s4 _
              rcases hR : expect "RPAREN" (some "Expected ')' after function arguments") s4
                with ⟨r5, s5⟩
              have ht5 : s5.tokens = s4.tokens := by
                have := expect_tokens "RPAREN" (some "Expected ')' after function arguments") s4
                rw [hR] at this
                exact this
              have hp5 : s4.pos ≤ s5.pos := by
                have := expect_pos_ge "RPAREN" (some "Expected ')' after function arguments") s4
                rw [hR] at this
                exact this
              rcases hS : expect "SEMI" (some "Missing ';' after function call") s5
                with ⟨r6, s6⟩
              have ht6 : s6.tokens = s5.tokens := by
                have := expect_tokens "SEMI" (some "Missing ';' after function call") s5
                rw [hS] at this
                exact this
              have hp6 : s5.pos ≤ s6.pos := by
                have := expect_pos_ge "SEMI" (some "Missing ';' after function call") s5
                rw [hS] at this
                exact this
              exact inv_ok _ (ht6.trans ht5) (hp5.trans hp6)
            · intro hb
              refine pbind_ne_out ((ih.expression s2).2.2 ?_) ?_
              · have h4 := rem_def s
                have h5 := rem_def s2
                rw [ht2, ht1] at h5
                omega
              · intro e s3 hX
                have hE3 := rem_lt_of_ok_tok (ih.expression s2).1 (ih.expression s2).2.1 hX
                refine pbind_ne_out ((ih.argsl _ s3).2 ?_) ?_
                · have h4 := rem_def s
                  have h5 := rem_def s2
                  rw [ht2, ht1] at h5
                  omega
                · intro args s4 _
                  rcases hR : expect "RPAREN" (some "Expected ')' after function arguments") s4
                    with ⟨r5, s5⟩
                  rcases hS : expect "SEMI" (some "Missing ';' after function call") s5
                    with ⟨r6, s6⟩
                  exact ok_ne_out _ _
            · intro t' hct' htt'
              cases hct'
              have hcc := hcons1 htt'
              intro a s' h
              obtain ⟨e, s3, hX, hF⟩ := pbind_ok h
              have hE3 := ((ih.expression s2).1).1 e s3 hX
              obtain ⟨args, s4, hA, hF2⟩ := pbind_ok hF
              have hA4 := ((ih.argsl _ s3).1).1 args s4 hA
              rcases hR : expect "RPAREN" (some "Expected ')' after function arguments") s4
                with ⟨r5, s5⟩
              rw [hR] at hF2
              have hp5 : s4.pos ≤ s5.pos := by
                have := expect_pos_ge "RPAREN" (some "Expected ')' after function arguments") s4
                rw [hR] at this
                exact this
              rcases hS : expect "SEMI" (some "Missing ';' after function call") s5
                with ⟨r6, s6⟩
              rw [hS] at hF2
              cases hF2
              have hp6 : s5.pos ≤ s6.pos := by
                have := expect_pos_ge "SEMI" (some "Missing ';' after function call") s5
                rw [hS] at this
                exact this
              have hn6 : (r6, s6).2.pos = s6.pos := rfl
              have hE3p := hE3.2
              have hA4p := hA4.2
              omega
    have Hif : ∀ s, Inv s (parse_if (fuel+1) s) ∧
        (32 * rem s + 24 ≤ fuel+1 → parse_if (fuel+1) s ≠ .out) ∧
        (∀ t, cur s = some t → t.type = "IF" → Consumes s (parse_if (fuel+1) s)) := by
      intro s
      simp only [parse_if]
      rcases hI : expect "IF" none s with ⟨r1, s1⟩
      have ht1 : s1.tokens = s.tokens := by
        have := expect_tokens "IF" none s
        rw [hI] at this
        exact this
      have hp1 : s.pos ≤ s1.pos := by
        have := expect_pos_ge "IF" none s
        rw [hI] at this
        exact this
      refine ⟨?_, ?_, ?_⟩
      · refine inv_pbind (inv_mono (ih.expression s1).1 ht1 hp1) ?_
        intro test s2 _
        rcases hL : expect "LBRACE" (some "Missing '\x7b' after if condition") s2 with ⟨r3, s3⟩
        have ht3 : s3.tokens = s2.tokens := by
          have := expect_tokens "LBRACE" (some "Missing '\x7b' after if condition") s2
          rw [hL] at this
          exact this
        have hp3 : s2.pos ≤ s3.pos := by
          have := expect_pos_ge "LBRACE" (some "Missing '\x7b' after if condition") s2
          rw [hL] at this
          exact this
        refine inv_pbind (inv_mono (ih.blockl [] s3).1 ht3 hp3) ?_
        intro consequence s4 _
        rcases hR : expect "RBRACE" (some "Missing '\x7d' at the end of if block") s4
          with ⟨r5, s5⟩
        have ht5 : s5.tokens = s4.tokens := by
          have := expect_tokens "RBRACE" (some "Missing '\x7d' at the end of if block") s4
          rw [hR] at this
          exact this
        have hp5 : s4.pos ≤ s5.pos := by
          have := expect_pos_ge "RBRACE" (some "Missing '\x7d' at the end of if block") s4
          rw [hR] at this
          exact this
        cases hc5 : cur s5 with
        | none =>
          simp only [hc5]
          exact inv_ok _ ht5 hp5
        | some t' =>
          simp only [hc5]
          by_cases helse : t'.type = "ELSE"
          · rw [if_pos helse]
            rcases hL2 : expect "LBRACE" (some "Missing '\x7b' after else") (advance s5)
              with ⟨r7, s7⟩
            have ht7 : s7.tokens = s5.tokens := by
              have := expect_tokens "LBRACE" (some "Missing '\x7b' after else") (advance s5)
              rw [hL2] at this
              exact this
            have hp7 : s5.pos + 1 ≤ s7.pos := by
              have := expect_pos_ge "LBRACE" (some "Missing '\x7b' after else") (advance s5)
              rw [hL2] at this
              exact this
            refine inv_pbind (inv_mono (ih.blockl [] s7).1 (ht7.trans ht5) (by omega)) ?_
            intro alt s8 _
            rcases hR2 : expect "RBRACE" (some "Missing '\x7d' at the end of else block") s8
              with ⟨r9, s9⟩
            have ht9 : s9.tokens = s8.tokens := by
              have := expect_tokens "RBRACE" (some "Missing '\x7d' at the end of else block") s8
              rw [hR2] at this
              exact this
            have hp9 : s8.pos ≤ s9.pos := by
              have := expect_pos_ge "RBRACE" (some "Missing '\x7d' at the end of else block") s8
              rw [hR2] at this
              exact this
            exact inv_ok _ ht9 hp9
          · rw [if_neg helse]
            exact inv_ok _ ht5 hp5
      · intro hb
        refine pbind_ne_out ((ih.expression s1).2.2 ?_) ?_
        · have h4 := rem_def s
          have h5 := rem_def s1
          rw [ht1] at h5
          omega
        · intro test s2 hX
          have hCT := (ih.expression s1).2.1 test s2 hX
          have hIT := ((ih.expression s1).1).1 test s2 hX
          have hlen1 : s1.tokens.length = s.tokens.length := by rw [ht1]
          rcases hL : expect "LBRACE" (some "Missing '\x7b' after if condition") s2 with ⟨r3, s3⟩
          have ht3 : s3.tokens = s2.tokens := by
            have := expect_tokens "LBRACE" (some "Missing '\x7b' after if condition") s2
            rw [hL] at this
            exact this
          have hp3 : s2.pos ≤ s3.pos := by
            have := expect_pos_ge "LBRACE" (some "Missing '\x7b' after if condition") s2
            rw [hL] at this
            exact this
          refine pbind_ne_out ((ih.blockl [] s3).2 ?_) ?_
          · have d1 := rem_def s
            have d2 := rem_def s3
            rw [ht3, hIT.1, ht1] at d2
            omega
          · intro consequence s4 hB
            have hI4 := ((ih.blockl [] s3).1).1 consequence s4 hB
            rcases hR : expect "RBRACE" (some "Missing '\x7d' at the end of if block") s4
              with ⟨r5, s5⟩
            have ht5 : s5.tokens = s4.tokens := by
              have := expect_tokens "RBRACE" (some "Missing '\x7d' at the end of if block") s4
              rw [hR] at this
              exact this
            have hp5 : s4.pos ≤ s5.pos := by
              have := expect_pos_ge "RBRACE" (some "Missing '\x7d' at the end of if block") s4
              rw [hR] at this
              exact this
            cases hc5 : cur s5 with
            | none =>
              simp only [hc5]
              exact ok_ne_out _ _
            | some t' =>
              simp only [hc5]
              by_cases helse : t'.type = "ELSE"
              · rw [if_pos helse]
                rcases hL2 : expect "LBRACE" (some "Missing '\x7b' after else") (advance s5)
                  with ⟨r7, s7⟩
                have ht7 : s7.tokens = s5.tokens := by
                  have := expect_tokens "LBRACE" (some "Missing '\x7b' after else") (advance s5)
                  rw [hL2] at this
                  exact this
                have hp7 : s5.pos + 1 ≤ s7.pos := by
                  have := expect_pos_ge "LBRACE" (some "Missing '\x7b' after else") (advance s5)
                  rw [hL2] at this
                  exact this
                refine pbind_ne_out ((ih.blockl [] s7).2 ?_) ?_
                · have d1 := rem_def s
                  have d2 := rem_def s7
                  rw [ht7, ht5, hI4.1, ht3, hIT.1, ht1] at d2
                  omega
                · intro alt s8 _
                  rcases hR2 : expect "RBRACE"
                    (some "Missing '\x7d' at the end of else block") s8 with ⟨r9, s9⟩
                  exact ok_ne_out _ _
              · rw [if_neg helse]
                exact ok_ne_out _ _
      · intro t hc ht
        have e1 := expect_match_state none hc ht hI
        subst e1
        intro a s' h
        obtain ⟨test, s2, hX, hF⟩ := pbind_ok h
        have hE := ((ih.expression (advance s)).1).1 test s2 hX
        have hadv := advance_pos s
        rcases hL : expect "LBRACE" (some "Missing '\x7b' after if condition") s2 with ⟨r3, s3⟩
        rw [hL] at hF
        have hp3 : s2.pos ≤ s3.pos := by
          have := expect_pos_ge "LBRACE" (some "Missing '\x7b' after if condition") s2
          rw [hL] at this
          exact this
        obtain ⟨consequence, s4, hB, hF2⟩ := pbind_ok hF
        have hI4 := ((ih.blockl [] _).1).1 consequence s4 hB
        rcases hR : expect "RBRACE" (some "Missing '\x7d' at the end of if block") s4
          with ⟨r5, s5⟩
        rw [hR] at hF2
        have hp5 : s4.pos ≤ s5.pos := by
          have := expect_pos_ge "RBRACE" (some "Missing '\x7d' at the end of if block") s4
          rw [hR] at this
          exact this
        have hn5 : (r5, s5).2.pos = s5.pos := rfl
        have hn3 : (r3, s3).2.pos = s3.pos := rfl
        cases hc5 : cur s5 with
        | none =>
          simp only [hc5] at hF2
          cases hF2
          have hI4p := hI4.2
          omega
        | some t' =>
          simp only [hc5] at hF2
          by_cases helse : t'.type = "ELSE"
          · rw [if_pos helse] at hF2
            rcases hL2 : expect "LBRACE" (some "Missing '\x7b' after else") (advance s5)
              with ⟨r7, s7⟩
            rw [hL2] at hF2
            have hp7 : s5.pos + 1 ≤ s7.pos := by
              have := expect_pos_ge "LBRACE" (some "Missing '\x7b' after else") (advance s5)
              rw [hL2] at this
              exact this
            obtain ⟨alt, s8, hB2, hF3⟩ := pbind_ok hF2
            have hI8 := ((ih.blockl [] _).1).1 alt s8 hB2
            rcases hR2 : expect "RBRACE" (some "Missing '\x7d' at the end of else block") s8
              with ⟨r9, s9⟩
            rw [hR2] at hF3
            cases hF3
            have hp9 : s8.pos ≤ s9.pos := by
              have := expect_pos_ge "RBRACE" (some "Missing '\x7d' at the end of else block") s8
              rw [hR2] at this
              exact this
            have hn9 : (r9, s9).2.pos = s9.pos := rfl
            have hn7 : (r7, s7).2.pos = s7.pos := rfl
            have hI4p := hI4.2
            have hI8p := hI8.2
            omega
          · rw [if_neg helse] at hF2
            cases hF2
            have hI4p := hI4.2
            omega
    have Hwhl : ∀ s, Inv s (parse_while (fuel+1) s) ∧
        (32 * rem s + 24 ≤ fuel+1 → parse_while (fuel+1) s ≠ .out) ∧
        (∀ t, cur s = some t → t.type = "WHILE" → Consumes s (parse_while (fuel+1) s)) := by
      intro s
      simp only [parse_while]
      rcases hI : expect "WHILE" none s with ⟨r1, s1⟩
      have ht1 : s1.tokens = s.tokens := by
        have := expect_tokens "WHILE" none s
        rw [hI] at this
        exact this
      have hp1 : s.pos ≤ s1.pos := by
        have := expect_pos_ge "WHILE" none s
        rw [hI] at this
        exact this
      refine ⟨?_, ?_, ?_⟩
      · refine inv_pbind (inv_mono (ih.expression s1).1 ht1 hp1) ?_
        intro test s2 _
        rcases hL : expect "LBRACE" (some "Missing '\x7b' after while condition") s2
          with ⟨r3, s3⟩
        have ht3 : s3.tokens = s2.tokens := by
          have := expect_tokens "LBRACE" (some "Missing '\x7b' after while condition") s2
          rw [hL] at this
          exact this
        have hp3 : s2.pos ≤ s3.pos := by
          have := expect_pos_ge "LBRACE" (some "Missing '\x7b' after while condition") s2
          rw [hL] at this
          exact this
        refine inv_pbind (inv_mono (ih.blockl [] s3).1 ht3 hp3) ?_
        intro body s4 _
        rcases hR : expect "RBRACE" (some "Missing '\x7d' at the end of while block") s4
          with ⟨r5, s5⟩
        have ht5 : s5.tokens = s4.tokens := by
          have := expect_tokens "RBRACE" (some "Missing '\x7d' at the end of while block") s4
          rw [hR] at this
          exact this
        have hp5 : s4.pos ≤ s5.pos := by
          have := expect_pos_ge "RBRACE" (some "Missing '\x7d' at the end of while block") s4
          rw [hR] at this
          exact this
        exact inv_ok _ ht5 hp5
      · intro hb
        refine pbind_ne_out ((ih.expression s1).2.2 ?_) ?_
        · have h4 := rem_def s
          have h5 := rem_def s1
          rw [ht1] at h5
          omega
        · intro test s2 hX
          have hCT := (ih.expression s1).2.1 test s2 hX
          have hIT := ((ih.expression s1).1).1 test s2 hX
          have hlen1 : s1.tokens.length = s.tokens.length := by rw [ht1]
          rcases hL : expect "LBRACE" (some "Missing '\x7b' after while condition") s2
            with ⟨r3, s3⟩
          have ht3 : s3.tokens = s2.tokens := by
            have := expect_tokens "LBRACE" (some "Missing '\x7b' after while condition") s2
            rw [hL] at this
            exact this
          have hp3 : s2.pos ≤ s3.pos := by
            have := expect_pos_ge "LBRACE" (some "Missing '\x7b' after while condition") s2
            rw [hL] at this
            exact this
          refine pbind_ne_out ((ih.blockl [] s3).2 ?_) ?_
          · have d1 := rem_def s
            have d2 := rem_def s3
            rw [ht3, hIT.1, ht1] at d2
            omega
          · intro body s4 _
            rcases hR : expect "RBRACE" (some "Missing '\x7d' at the end of while block") s4
              with ⟨r5, s5⟩
            exact ok_ne_out _ _
      · intro t hc ht
        have e1 := expect_match_state none hc ht hI
        subst e1
        intro a s' h
        obtain ⟨test, s2, hX, hF⟩ := pbind_ok h
        have hE := ((ih.expression (advance s)).1).1 test s2 hX
        have hadv := advance_pos s
        rcases hL : expect "LBRACE" (some "Missing '\x7b' after while condition") s2
          with ⟨r3, s3⟩
        rw [hL] at hF
        have hp3 : s2.pos ≤ s3.pos := by
          have := expect_pos_ge "LBRACE" (some "Missing '\x7b' after while condition") s2
          rw [hL] at this
          exact this
        obtain ⟨body, s4, hB, hF2⟩ := pbind_ok hF
        have hI4 := ((ih.blockl [] _).1).1 body s4 hB
        rcases hR : expect "RBRACE" (some "Missing '\x7d' at the end of while block") s4
          with ⟨r5, s5⟩
        rw [hR] at hF2
        cases hF2
        have hp5 : s4.pos ≤ s5.pos := by
          have := expect_pos_ge "RBRACE" (some "Missing '\x7d' at the end of while block") s4
          rw [hR] at this
          exact this
        have hn5 : (r5, s5).2.pos = s5.pos := rfl
        have hn3 : (r3, s3).2.pos = s3.pos := rfl
        have hI4p := hI4.2
        omega
    have Hfb : ∀ name l s, Inv s (function_body (fuel+1) name l s) ∧
        (32 * rem s + 27 ≤ fuel+1 → function_body (fuel+1) name l s ≠ .out) := by
      intro name l s
      simp only [function_body]
      rcases hR : expect "RPAREN" (some "Expected ')' after parameters in function declaration")
        s with ⟨r1, s1⟩
      have ht1 : s1.tokens = s.tokens := by
        have := expect_tokens "RPAREN"
          (some "Expected ')' after parameters in function declaration") s
        rw [hR] at this
        exact this
      have hp1 : s.pos ≤ s1.pos := by
        have := expect_pos_ge "RPAREN"
          (some "Expected ')' after parameters in function declaration") s
        rw [hR] at this
        exact this
      rcases hL : expect "LBRACE" (some "Expected '\x7b' to start function body") s1
        with ⟨r2, s2⟩
      have ht2 : s2.tokens = s1.tokens := by
        have := expect_tokens "LBRACE" (some "Expected '\x7b' to start function body") s1
        rw [hL] at this
        exact this
      have hp2 : s1.pos ≤ s2.pos := by
        have := expect_pos_ge "LBRACE" (some "Expected '\x7b' to start function body") s1
        rw [hL] at this
        exact this
      refine ⟨?_, ?_⟩
      · refine inv_pbind (inv_mono (ih.blockl [] s2).1 (ht2.trans ht1) (hp1.trans hp2)) ?_
        intro body s3 _
        rcases hR2 : expect "RBRACE" (some "Expected '\x7d' to end function body") s3
          with ⟨r4, s4⟩
        have ht4 : s4.tokens = s3.tokens := by
          have := expect_tokens "RBRACE" (some "Expected '\x7d' to end function body") s3
          rw [hR2] at this
          exact this
        have hp4 : s3.pos ≤ s4.pos := by
          have := expect_pos_ge "RBRACE" (some "Expected '\x7d' to end function body") s3
          rw [hR2] at this
          exact this
        exact inv_ok _ ht4 hp4
      · intro hb
        refine pbind_ne_out ((ih.blockl [] s2).2 ?_) ?_
        · have d1 := rem_def s
          have d2 := rem_def s2
          rw [ht2, ht1] at d2
          omega
        · intro body s3 _
          rcases hR2 : expect "RBRACE" (some "Expected '\x7d' to end function body") s3
            with ⟨r4, s4⟩
          exact ok_ne_out _ _
    have Hfun : ∀ s, Inv s (parse_function (fuel+1) s) ∧
        (∀ t, cur s = some t → t.type = "FUNC" →
          (32 * rem s + 24 ≤ fuel+1 → parse_function (fuel+1) s ≠ .out) ∧
          Consumes s (parse_function (fuel+1) s)) := by
      intro s
      simp only [parse_function]
      rcases hF1 : expect "FUNC" none s with ⟨r1, s1⟩
      have ht1 : s1.tokens = s.tokens := by
        have := expect_tokens "FUNC" none s
        rw [hF1] at this
        exact this
      have hp1 : s.pos ≤ s1.pos := by
        have := expect_pos_ge "FUNC" none s
        rw [hF1] at this
        exact this
      cases hc1 : cur s1 with
      | none =>
        simp only [hc1]
        refine ⟨inv_crash hc1 ht1 hp1, ?_⟩
        intro t hc ht
        exact ⟨fun _ => crash_ne_out _, consumes_crash _ _⟩
      | some t0 =>
        simp only [hc1]
        rcases hI : expect "ID" (some "Expected function name after FUNC keyword") s1
          with ⟨r2, s2⟩
        have ht2 : s2.tokens = s1.tokens := by
          have := expect_tokens "ID" (some "Expected function name after FUNC keyword") s1
          rw [hI] at this
          exact this
        have hp2 : s1.pos ≤ s2.pos := by
          have := expect_pos_ge "ID" (some "Expected function name after FUNC keyword") s1
          rw [hI] at this
          exact this
        rcases hL : expect "LPAREN" (some "Expected '(' after function name in declaration") s2
          with ⟨r3, s3⟩
        have ht3 : s3.tokens = s2.tokens := by
          have := expect_tokens "LPAREN"
            (some "Expected '(' after function name in declaration") s2
          rw [hL] at this
          exact this
        have hp3 : s2.pos ≤ s3.pos := by
          have := expect_pos_ge "LPAREN"
            (some "Expected '(' after function name in declaration") s2
          rw [hL] at this
          exact this
        have htok3 : s3.tokens = s.tokens := (ht3.trans ht2).trans ht1
        have hguard : ∀ t, cur s = some t → t.type = "FUNC" → s.pos + 1 ≤ s1.pos := by
          intro t hc ht
          have := expect_match_state none hc ht hF1
          rw [this, advance_pos]
        cases hc3 : cur s3 with
        | none =>
          simp only [hc3]
          refine ⟨inv_crash hc3 htok3 (by omega), ?_⟩
          intro t hc ht
          exact ⟨fun _ => crash_ne_out _, consumes_crash _ _⟩
        | some u =>
          simp only [hc3]
          by_cases hr : u.type = "RPAREN"
          · rw [if_neg (not_not_intro hr)]
            refine ⟨inv_mono (ih.fbody _ _ s3).1 htok3 (by omega), ?_⟩
            intro t hc ht
            have hg := hguard t hc ht
            have hlt := cur_eq_some_lt hc
            constructor
            · intro hb
              refine (ih.fbody _ _ s3).2 ?_
              have d1 := rem_def s
              have d2 := rem_def s3
              rw [htok3] at d2
              omega
            · intro a s' h
              have := ((ih.fbody _ _ s3).1).1 a s' h
              omega
          · rw [if_pos hr]
            rcases hP : expect "ID" (some "Expected parameter name") s3 with ⟨r4, s4⟩
            have ht4 : s4.tokens = s3.tokens := by
              have := expect_tokens "ID" (some "Expected parameter name") s3
              rw [hP] at this
              exact this
            have hp4 : s3.pos ≤ s4.pos := by
              have := expect_pos_ge "ID" (some "Expected parameter name") s3
              rw [hP] at this
              exact this
            refine ⟨?_, ?_⟩
            · refine inv_pbind (inv_mono (ih.paramsl _ s4).1 (ht4.trans htok3) (by omega)) ?_
              intro params s5 _
              exact inv_mono (ih.fbody _ _ s5).1 rfl (Nat.le_refl _)
            · intro t hc ht
              have hg := hguard t hc ht
              have hlt := cur_eq_some_lt hc
              constructor
              · intro hb
                refine pbind_ne_out ((ih.paramsl _ s4).2 ?_) ?_
                · have d1 := rem_def s
                  have d2 := rem_def s4
                  rw [ht4, htok3] at d2
                  omega
                · intro params s5 hPL
                  have hI5 := ((ih.paramsl _ s4).1).1 params s5 hPL
                  refine (ih.fbody _ _ s5).2 ?_
                  have d1 := rem_def s
                  have d2 := rem_def s5
                  rw [hI5.1, ht4, htok3] at d2
                  omega
              · intro a s' h
                obtain ⟨params, s5, hPL, hFB⟩ := pbind_ok h
                have hI5 := ((ih.paramsl _ s4).1).1 params s5 hPL
                have hFB5 := ((ih.fbody _ _ s5).1).1 a s' hFB
                omega
    have Hstm : ∀ s, Inv s (parse_statement (fuel+1) s) ∧
        (∀ t, cur s = some t → Consumes s (parse_statement (fuel+1) s)) ∧
        (32 * rem s + 25 ≤ fuel+1 → parse_statement (fuel+1) s ≠ .out) := by
      intro s
      cases hc : cur s with
      | none =>
        simp only [parse_statement, hc]
        refine ⟨inv_ok _ rfl (Nat.le_refl _), ?_, fun _ => ok_ne_out _ _⟩
        intro t hct
        cases hct
      | some t =>
        have hlt := cur_eq_some_lt hc
        simp only [parse_statement, hc]
        by_cases b1 : t.type = "IMPORT"
        · rw [if_pos b1]
          rcases hIm : parse_import s with ⟨r, s1⟩
          have hst := parse_import_state s
          rw [hIm] at hst
          refine ⟨inv_ok _ hst.1 hst.2, ?_, fun _ => ok_ne_out _ _⟩
          intro t' hct'
          have hcons := parse_import_consumes hc b1
          rw [hIm] at hcons
          exact consumes_ok hcons
        rw [if_neg b1]
        by_cases b2 : t.type = "VAR" ∨ t.type = "CONST"
        · rw [if_pos b2]
          refine ⟨?_, ?_, ?_⟩
          · refine inv_pbind (ih.declp s).1 ?_
            intro stmt s1 _
            rcases hS : expect "SEMI" (some "Missing ';' after declaration") s1 with ⟨r2, s2⟩
            have ht2 : s2.tokens = s1.tokens := by
              have := expect_tokens "SEMI" (some "Missing ';' after declaration") s1
              rw [hS] at this
              exact this
            have hp2 : s1.pos ≤ s2.pos := by
              have := expect_pos_ge "SEMI" (some "Missing ';' after declaration") s1
              rw [hS] at this
              exact this
            exact inv_ok _ ht2 hp2
          · intro t' hct'
            refine consumes_pbind_left (ih.declp s).2.2 ?_
            intro stmt s1 _
            rcases hS : expect "SEMI" (some "Missing ';' after declaration") s1 with ⟨r2, s2⟩
            have ht2 : s2.tokens = s1.tokens := by
              have := expect_tokens "SEMI" (some "Missing ';' after declaration") s1
              rw [hS] at this
              exact this
            have hp2 : s1.pos ≤ s2.pos := by
              have := expect_pos_ge "SEMI" (some "Missing ';' after declaration") s1
              rw [hS] at this
              exact this
            exact inv_ok _ ht2 hp2
          · intro hb
            refine pbind_ne_out ((ih.declp s).2.1 (by omega)) ?_
            intro stmt s1 _
            rcases hS : expect "SEMI" (some "Missing ';' after declaration") s1 with ⟨r2, s2⟩
            exact ok_ne_out _ _
        rw [if_neg b2]
        by_cases b3 : t.type = "PRINT"
        · rw [if_pos b3]
          refine ⟨inv_pbind (ih.printp s).1 (fun n s1 _ => inv_ok _ rfl (Nat.le_refl _)),
            ?_, ?_⟩
          · intro t' hct'
            exact consumes_pbind_left ((ih.printp s).2.2 t hc b3)
              (fun n s1 _ => inv_ok _ rfl (Nat.le_refl _))
          · intro hb
            exact pbind_ne_out ((ih.printp s).2.1 (by omega)) (fun n s1 _ => ok_ne_out _ _)
        rw [if_neg b3]
        by_cases b4 : t.type = "IF"
        · rw [if_pos b4]
          refine ⟨inv_pbind (ih.ifp s).1 (fun n s1 _ => inv_ok _ rfl (Nat.le_refl _)),
            ?_, ?_⟩
          · intro t' hct'
            exact consumes_pbind_left ((ih.ifp s).2.2 t hc b4)
              (fun n s1 _ => inv_ok _ rfl (Nat.le_refl _))
          · intro hb
            exact pbind_ne_out ((ih.ifp s).2.1 (by omega)) (fun n s1 _ => ok_ne_out _ _)
        rw [if_neg b4]
        by_cases b5 : t.type = "WHILE"
        · rw [if_pos b5]
          refine ⟨inv_pbind (ih.whilep s).1 (fun n s1 _ => inv_ok _ rfl (Nat.le_refl _)),
            ?_, ?_⟩
          · intro t' hct'
            exact consumes_pbind_left ((ih.whilep s).2.2 t hc b5)
              (fun n s1 _ => inv_ok _ rfl (Nat.le_refl _))
          · intro hb
            exact pbind_ne_out ((ih.whilep s).2.1 (by omega)) (fun n s1 _ => ok_ne_out _ _)
        rw [if_neg b5]
        by_cases b6 : t.type = "FUNC"
        · rw [if_pos b6]
          refine ⟨inv_pbind (ih.funcp s).1 (fun n s1 _ => inv_ok _ rfl (Nat.le_refl _)),
            ?_, ?_⟩
          · intro t' hct'
            exact consumes_pbind_left ((ih.funcp s).2 t hc b6).2
              (fun n s1 _ => inv_ok _ rfl (Nat.le_refl _))
          · intro hb
            exact pbind_ne_out (((ih.funcp s).2 t hc b6).1 (by omega))
              (fun n s1 _ => ok_ne_out _ _)
        rw [if_neg b6]
        by_cases b7 : t.type = "RETURN"
        · rw [if_pos b7]
          refine ⟨inv_pbind (ih.returnp s).1 (fun n s1 _ => inv_ok _ rfl (Nat.le_refl _)),
            ?_, ?_⟩
          · intro t' hct'
            exact consumes_pbind_left ((ih.returnp s).2.2 t hc b7)
              (fun n s1 _ => inv_ok _ rfl (Nat.le_refl _))
          · intro hb
            exact pbind_ne_out ((ih.returnp s).2.1 (by omega)) (fun n s1 _ => ok_ne_out _ _)
        rw [if_neg b7]
        by_cases b8 : t.type = "ID"
        · rw [if_pos b8]
          cases hpk : peek s with
          | some p =>
            simp only [hpk]
            by_cases blp : p.type = "LPAREN"
            · rw [if_pos blp]
              refine ⟨inv_pbind (ih.fcallp s).1 (fun n s1 _ => inv_ok _ rfl (Nat.le_refl _)),
                ?_, ?_⟩
              · intro t' hct'
                exact consumes_pbind_left ((ih.fcallp s).2.2 t hc b8)
                  (fun n s1 _ => inv_ok _ rfl (Nat.le_refl _))
              · intro hb
                exact pbind_ne_out ((ih.fcallp s).2.1 (by omega))
                  (fun n s1 _ => ok_ne_out _ _)
            · rw [if_neg blp]
              refine ⟨inv_pbind (ih.assignp s).1 (fun n s1 _ => inv_ok _ rfl (Nat.le_refl _)),
                ?_, ?_⟩
              · intro t' hct'
                exact consumes_pbind_left ((ih.assignp s).2.2 t hc b8)
                  (fun n s1 _ => inv_ok _ rfl (Nat.le_refl _))
              · intro hb
                exact pbind_ne_out ((ih.assignp s).2.1 (by omega))
                  (fun n s1 _ => ok_ne_out _ _)
          | none =>
            simp only [hpk]
            refine ⟨inv_pbind (ih.assignp s).1 (fun n s1 _ => inv_ok _ rfl (Nat.le_refl _)),
              ?_, ?_⟩
            · intro t' hct'
              exact consumes_pbind_left ((ih.assignp s).2.2 t hc b8)
                (fun n s1 _ => inv_ok _ rfl (Nat.le_refl _))
            · intro hb
              exact pbind_ne_out ((ih.assignp s).2.1 (by omega))
                (fun n s1 _ => ok_ne_out _ _)
        rw [if_neg b8]
        refine ⟨inv_ok _ rfl (Nat.le_succ _), ?_, fun _ => ok_ne_out _ _⟩
        intro t' hct'
        exact consumes_ok (Nat.lt_succ_self _)
    have Hblk : ∀ l s, Inv s (block_loop (fuel+1) l s) ∧
        (32 * rem s + 26 ≤ fuel+1 → block_loop (fuel+1) l s ≠ .out) := by
      intro l s
      cases hc : cur s with
      | none =>
        simp only [block_loop, hc]
        exact ⟨inv_ok _ rfl (Nat.le_refl _), fun _ => ok_ne_out _ _⟩
      | some t =>
        have hlt := cur_eq_some_lt hc
        simp only [block_loop, hc]
        by_cases h1 : t.type = "RBRACE"
        · rw [if_neg (not_not_intro h1)]
          exact ⟨inv_ok _ rfl (Nat.le_refl _), fun _ => ok_ne_out _ _⟩
        · rw [if_pos h1]
          refine ⟨inv_pbind (ih.stmt s).1 (fun stmt s1 _ => (ih.blockl _ s1).1), ?_⟩
          intro hb
          refine pbind_ne_out ((ih.stmt s).2.2 (by omega)) ?_
          intro stmt s1 hX
          refine (ih.blockl _ s1).2 ?_
          have hcons := (ih.stmt s).2.1 t hc stmt s1 hX
          have hIv := ((ih.stmt s).1).1 stmt s1 hX
          have d1 := rem_def s
          have d2 := rem_def s1
          rw [hIv.1] at d2
          omega
    have Hlp : ∀ l s, Inv s (parse_loop (fuel+1) l s) ∧
        (∀ a s', parse_loop (fuel+1) l s = .ok a s' → s'.tokens.length ≤ s'.pos) ∧
        (32 * rem s + 26 ≤ fuel+1 → parse_loop (fuel+1) l s ≠ .out) := by
      intro l s
      cases hc : cur s with
      | none =>
        simp only [parse_loop, hc]
        refine ⟨inv_ok _ rfl (Nat.le_refl _), ?_, fun _ => ok_ne_out _ _⟩
        intro a s' h
        cases h
        exact (cur_eq_none_iff s).1 hc
      | some t =>
        have hlt := cur_eq_some_lt hc
        simp only [parse_loop, hc]
        refine ⟨?_, ?_, ?_⟩
        · refine inv_pbind (ih.stmt s).1 ?_
          intro stmt s1 _
          cases stmt with
          | some n => exact (ih.loopp _ s1).1
          | none => exact inv_mono (ih.loopp _ (advance s1)).1 rfl (Nat.le_succ _)
        · intro a s' h
          obtain ⟨stmt, s1, hX, hF⟩ := pbind_ok h
          cases stmt with
          | some n => exact (ih.loopp _ s1).2.1 a s' hF
          | none => exact (ih.loopp _ (advance s1)).2.1 a s' hF
        · intro hb
          refine pbind_ne_out ((ih.stmt s).2.2 (by omega)) ?_
          intro stmt s1 hX
          have hcons := (ih.stmt s).2.1 t hc stmt s1 hX
          have hIv := ((ih.stmt s).1).1 stmt s1 hX
          have d1 := rem_def s
          have d2 := rem_def s1
          rw [hIv.1] at d2
          cases stmt with
          | some n =>
            refine (ih.loopp _ s1).2.2 ?_
            omega
          | none =>
            refine (ih.loopp _ (advance s1)).2.2 ?_
            have d3 := rem_advance s1
            rw [hIv.1] at d3
            omega
    have Hps : ∀ s, Inv s (parse (fuel+1) s) ∧
        (∀ a s', parse (fuel+1) s = .ok a s' → s'.tokens.length ≤ s'.pos) ∧
        (32 * rem s + 27 ≤ fuel+1 → parse (fuel+1) s ≠ .out) := by
      intro s
      simp only [parse]
      refine ⟨inv_pbind (ih.loopp [] s).1 (fun sts s1 _ => inv_ok _ rfl (Nat.le_refl _)),
        ?_, ?_⟩
      · intro a s' h
        obtain ⟨sts, s1, hX, hF⟩ := pbind_ok h
        have hend := (ih.loopp [] s).2.1 sts s1 hX
        cases hF
        exact hend
      · intro hb
        exact pbind_ne_out ((ih.loopp [] s).2.2 (by omega)) (fun sts s1 _ => ok_ne_out _ _)
    exact ⟨Hprim, Huna, Hfloop, Hfact, Htloop, Hterm, Hcloop, Hcomp, Hlloop, Hland,
      Horloop, Hlor, Hexpr, Hargs, Hparams, Hdval, Hdecl, Hprint, Hret, Hasg,
      Hfcl, Hif, Hwhl, Hfb, Hfun, Hstm, Hblk, Hlp, Hps⟩

theorem has_errors_iff (s : ParserState) : has_errors s = true ↔ s.errors ≠ [] := by
  cases hE : s.errors <;> simp [has_errors, hE]

/-- The top-level statement loop only ever appends statements wrapped in
`some`: a failure marker can reach the accumulated list only if it was
already in the accumulator. -/
theorem parse_loop_no_none : ∀ fuel acc s sts s',
    parse_loop fuel acc s = .ok sts s' →
    (none : Option Node) ∈ sts → (none : Option Node) ∈ acc := by
  intro fuel
  induction fuel with
  | zero =>
    intro acc s sts s' h
    simp [parse_loop] at h
  | succ fuel ihf =>
    intro acc s sts s' h hm
    simp only [parse_loop] at h
    cases hc : cur s with
    | none =>
      rw [hc] at h
      cases h
      exact hm
    | some t =>
      rw [hc] at h
      obtain ⟨stmt, s1, hX, hF⟩ := pbind_ok h
      cases stmt with
      | some n =>
        have := ihf _ _ _ _ hF hm
        simpa using this
      | none => exact ihf _ _ _ _ hF hm

/-- A successful parse always returns a `Program` node, produced by the
statement loop started on an empty accumulator. -/
theorem parse_ok_shape {fuel : Nat} {s : ParserState} {n : Node} {s' : ParserState}
    (h : parse fuel s = .ok n s') :
    ∃ sts, n = .program sts ∧ parse_loop (fuel - 1) [] s = .ok sts s' := by
  cases fuel with
  | zero => simp [parse] at h
  | succ fuel =>
    simp only [parse] at h
    obtain ⟨sts, s1, hX, hF⟩ := pbind_ok h
    cases hF
    exact ⟨sts, rfl, by simpa using hX⟩

/-- The class name `_serialize_ast` writes into the "type" field
(`node.__class__.__name__`). -/
def variant_name : Node → String
  | .program _ => "Program"
  | .integer _ => "Integer"
  | .float _ => "Float"
  | .boolean _ => "Boolean"
  | .string _ => "String"
  | .binOp .. => "BinOp"
  | .unaryOp .. => "UnaryOp"
  | .location _ => "Location"
  | .functionCall .. => "FunctionCall"
  | .print _ => "Print"
  | .assignment .. => "Assignment"
  | .ifStmt .. => "If"
  | .whileStmt .. => "While"
  | .variableDecl .. => "VariableDecl"
  | .constantDecl .. => "ConstantDecl"
  | .functionDecl .. => "FunctionDecl"
  | .returnStmt _ => "Return"
  | .parameter .. => "Parameter"
  | .importDecl _ => "ImportDecl"

/-- The field names of the serialized mapping after the leading "type"
key, per variant. VariableDecl's and Parameter's reassignments of
`data["type"]` introduce no new key (the value lands in the existing
first-position "type" entry), so only "name"/"initial_value" resp. "name"
follow it. -/
def field_names : Node → List String
  | .program _ => ["statements"]
  | .integer _ => ["value"]
  | .float _ => ["value"]
  | .boolean _ => ["value"]
  | .string _ => ["value"]
  | .binOp .. => ["operator", "left", "right"]
  | .unaryOp .. => ["operator", "operand"]
  | .location _ => ["name"]
  | .functionCall .. => ["name", "arguments"]
  | .print _ => ["expression"]
  | .assignment .. => ["target", "value"]
  | .ifStmt .. => ["condition", "consequence", "alternative"]
  | .whileStmt .. => ["condition", "body"]
  | .variableDecl .. => ["name", "initial_value"]
  | .constantDecl .. => ["name", "value"]
  | .functionDecl .. => ["name", "parameters", "return_type", "body"]
  | .returnStmt _ => ["value"]
  | .parameter .. => ["name"]
  | .importDecl _ => ["module_name"]

/-- The value `_serialize_ast` leaves in the "type" field: the class name,
except that the VariableDecl and Parameter branches overwrite it with
`node.var_type` / `node.param_type` (lines 363 and 377), null when the
attribute is None. -/
def type_field : Node → JVal
  | .variableDecl _ var_type _ => optStr var_type
  | .parameter _ param_type => optStr param_type
  | n => .jstr (variant_name n)

/-- Look a key up in a document's top-level mapping. -/
def jget (j : JVal) (key : String) : Option JVal :=
  match j with
  | .jobj fields => (fields.find? (fun f => decide (f.1 = key))).map Prod.snd
  | _ => none

/-- C1: the claim states that every grammar-valid token sequence parses with
zero diagnostics. The grammar of section 4.1 derives `var x ;` as
`statement ::= decl ';'`, yet the parser records "Missing ';' after
declaration": parse_declaration already consumed the ';' leniently and
parse_statement then expects a second one at end of input. The statement
count (one) is as claimed; the zero-diagnostics part is violated. -/
theorem decl_statement_spurious_diagnostic :
    parse 40 (init [⟨"VAR", "var", 1⟩, ⟨"ID", "x", 1⟩, ⟨"SEMI", ";", 1⟩]) =
      .ok (.program [some (.variableDecl "x" none none)])
        ⟨[⟨"VAR", "var", 1⟩, ⟨"ID", "x", 1⟩, ⟨"SEMI", ";", 1⟩], 3,
         [("Missing ';' after declaration", .eof)]⟩ := rfl

/-- C2: the claim states that an unmatched top-level token causes one
"unexpected token" diagnostic and a cursor advance of exactly one before
the next statement attempt. On two consecutive SEMI tokens the parser
records only the first diagnostic and finishes with the cursor two ahead:
parse_statement's else branch advances once and parse's recovery branch
advances again, so the second token is skipped without ever being
examined (the claim predicts a second diagnostic at line 2). -/
theorem unexpected_token_skips_two :
    parse 40 (init [⟨"SEMI", ";", 1⟩, ⟨"SEMI", ";", 2⟩]) =
      .ok (.program [])
        ⟨[⟨"SEMI", ";", 1⟩, ⟨"SEMI", ";", 2⟩], 2,
         [("Unexpected token type: SEMI", .line 1)]⟩ := rfl

/-- C3: the claim states that no token sequence makes parse() raise. On the
single token PRINT the expression parser reaches parse_primary with the
stream exhausted and dereferences `None` (`token.type`), an
AttributeError, modelled as the `crash` outcome. -/
theorem parse_crashes_on_print_eof :
    parse 40 (init [⟨"PRINT", "print", 1⟩]) =
      .crash ⟨[⟨"PRINT", "print", 1⟩], 1, []⟩ := rfl

/-- C4: on every finite token sequence the parser terminates within fuel
linear in the input size (it never exhausts `32 * length + 32` fuel), and
whether it returns normally or crashes, the cursor has reached the end of
the token sequence. -/
theorem parse_terminates (ts : List Token) :
    parse (32 * ts.length + 32) (init ts) ≠ .out ∧
    (∀ n s', parse (32 * ts.length + 32) (init ts) = .ok n s' →
      s'.tokens.length ≤ s'.pos) ∧
    (∀ s', parse (32 * ts.length + 32) (init ts) = .crash s' →
      s'.tokens.length ≤ s'.pos) := by
  have hm := (master (32 * ts.length + 32)).parsep (init ts)
  refine ⟨hm.2.2 ?_, hm.2.1, ?_⟩
  · have : rem (init ts) = ts.length := by simp [rem, init]
    omega
  · intro s' h
    exact ((hm.1).2 s' h).2.1

theorem parse_terminates_witness :
    parse (32 * 1 + 32) (init [⟨"SEMI", ";", 1⟩]) ≠ .out ∧
    ([⟨"SEMI", ";", 1⟩] : List Token).length ≤ 2 := by
  have h := parse_terminates [⟨"SEMI", ";", 1⟩]
  exact ⟨h.1, h.2.1 (.program [])
    ⟨[⟨"SEMI", ";", 1⟩], 2, [("Unexpected token type: SEMI", .line 1)]⟩ rfl⟩

/-- C5: whatever document to_json produces, it is the error document
(whose top-level mapping has the "errors" key) exactly when the sink holds
a diagnostic, and otherwise the serialized AST, whose top-level mapping
never has an "errors" key. -/
theorem to_json_error_discrimination (fuel : Nat) (s0 : ParserState) :
    ∀ doc s', to_json fuel s0 = .ok doc s' →
      (s'.errors ≠ [] → doc = errors_json s'.errors ∧ "errors" ∈ topKeys doc) ∧
      (s'.errors = [] → "errors" ∉ topKeys doc) := by
  intro doc s' h
  cases fuel with
  | zero => simp [to_json] at h
  | succ fuel =>
    simp only [to_json] at h
    obtain ⟨ast, s1, hX, hF⟩ := pbind_ok h
    obtain ⟨sts, hsts, _⟩ := parse_ok_shape hX
    by_cases he : has_errors s1 = true
    · rw [if_pos he] at hF
      cases hF
      constructor
      · intro _
        exact ⟨rfl, by simp [errors_json, topKeys]⟩
      · intro h0
        exact absurd ((has_errors_iff s').1 he) (by simp [h0])
    · rw [if_neg he] at hF
      cases hF
      constructor
      · intro hne
        exact absurd ((has_errors_iff s').2 hne) he
      · intro _
        subst hsts
        simp [serialize_ast, topKeys]

theorem to_json_error_discrimination_witness :
    "errors" ∉ topKeys (JVal.jobj [("type", .jstr "Program"),
      ("statements", .jlist [])]) := by
  have h := to_json_error_discrimination 3 (init [])
    (JVal.jobj [("type", .jstr "Program"), ("statements", .jlist [])]) (init []) rfl
  exact h.2 rfl

/-- C6: expect consumes and returns the current token when it has the
requested type; otherwise it appends one diagnostic (the given message or
the default "Expected TYPE") at the current token's line, or at end of
file when the stream is exhausted, and returns the failure marker without
consuming anything. -/
theorem expect_contract (token_type : String) (err_msg : Option String) (s : ParserState) :
    (∀ t, cur s = some t → t.type = token_type →
        expect token_type err_msg s = (some t, advance s)) ∧
    (∀ t, cur s = some t → t.type ≠ token_type →
        expect token_type err_msg s =
          (none, add_error (err_msg.getD ("Expected " ++ token_type)) (.line t.lineno) s)) ∧
    (cur s = none →
        expect token_type err_msg s =
          (none, add_error (err_msg.getD ("Expected " ++ token_type)) .eof s)) := by
  refine ⟨fun t hc ht => expect_match err_msg hc ht, ?_, ?_⟩
  · intro t hc ht
    unfold expect
    rw [hc]
    simp [ht]
  · intro h0
    unfold expect
    rw [h0]

theorem expect_contract_witness :
    expect "SEMI" none ⟨[⟨"SEMI", ";", 1⟩], 0, []⟩ =
      (some ⟨"SEMI", ";", 1⟩, ⟨[⟨"SEMI", ";", 1⟩], 1, []⟩) ∧
    expect "SEMI" none ⟨[⟨"ID", "x", 2⟩], 0, []⟩ =
      (none, ⟨[⟨"ID", "x", 2⟩], 0, [("Expected SEMI", .line 2)]⟩) ∧
    expect "SEMI" (some "Missing ';' after assignment") ⟨[], 0, []⟩ =
      (none, ⟨[], 0, [("Missing ';' after assignment", .eof)]⟩) := by
  refine ⟨(expect_contract "SEMI" none _).1 _ rfl rfl, ?_, ?_⟩
  · exact (expect_contract "SEMI" none ⟨[⟨"ID", "x", 2⟩], 0, []⟩).2.1
      ⟨"ID", "x", 2⟩ rfl (by decide)
  · exact (expect_contract "SEMI" (some "Missing ';' after assignment") _).2.2 rfl

/-- C7 counterexample: the claim says the serializer's fields exactly
mirror the section-3 attribute names, so Print should serialize an "expr"
field; the code writes "expression" instead. -/
theorem serialize_print_key_not_expr :
    topKeys (serialize_ast (.print (some (.integer 1)))) = ["type", "expression"] ∧
    "expr" ∉ topKeys (serialize_ast (.print (some (.integer 1)))) := by
  exact ⟨rfl, by decide⟩

/-- C7 amended: for every node the serializer emits a mapping whose first
field is "type"; it holds the node's variant name except for VariableDecl
and Parameter, where `data["type"]` is overwritten with `node.var_type` /
`node.param_type` (lines 363, 377; null when the attribute is None), so
the variant name is lost there. The remaining fields are the serializer's
own key names (Print uses "expression", FunctionCall "arguments",
Assignment "target"/"value", Return "value", VariableDecl
"initial_value", ...), not the section-3 attribute names. -/
theorem serialize_type_and_fields (n : Node) :
    jget (serialize_ast n) "type" = some (type_field n) ∧
    topKeys (serialize_ast n) = "type" :: field_names n := by
  cases n <;> exact ⟨rfl, rfl⟩

/-- C8: `1 + 2 * 3` parses to BinOp(+, Integer 1, BinOp(*, Integer 2,
Integer 3)): the multiplicative layer binds tighter. -/
theorem precedence_mul_binds_tighter :
    parse_expression 40 (init [⟨"INTEGER", "1", 1⟩, ⟨"PLUS", "+", 1⟩,
        ⟨"INTEGER", "2", 1⟩, ⟨"TIMES", "*", 1⟩, ⟨"INTEGER", "3", 1⟩]) =
      .ok (some (.binOp "+" (some (.integer 1))
            (some (.binOp "*" (some (.integer 2)) (some (.integer 3))))))
        ⟨[⟨"INTEGER", "1", 1⟩, ⟨"PLUS", "+", 1⟩,
          ⟨"INTEGER", "2", 1⟩, ⟨"TIMES", "*", 1⟩, ⟨"INTEGER", "3", 1⟩], 5, []⟩ := rfl

/-- C9: the Program node's statements list never contains a failure marker
(the top-level loop filters), while nested blocks append parse_statement's
raw result: on `if true { ; }` the If node's consequence is `[none]`, and
the serializer renders that entry as a null list element. -/
theorem top_level_no_none_nested_none_serialized :
    (∀ fuel s sts s', parse fuel s = .ok (.program sts) s' →
      (none : Option Node) ∉ sts) ∧
    parse 40 (init [⟨"IF", "if", 1⟩, ⟨"TRUE", "true", 1⟩, ⟨"LBRACE", "\x7b", 1⟩,
        ⟨"SEMI", ";", 2⟩, ⟨"RBRACE", "\x7d", 3⟩]) =
      .ok (.program [some (.ifStmt (some (.boolean true)) [none] [])])
        ⟨[⟨"IF", "if", 1⟩, ⟨"TRUE", "true", 1⟩, ⟨"LBRACE", "\x7b", 1⟩,
          ⟨"SEMI", ";", 2⟩, ⟨"RBRACE", "\x7d", 3⟩], 5,
         [("Unexpected token type: SEMI", .line 2)]⟩ ∧
    serialize_ast (.ifStmt (some (.boolean true)) [none] []) =
      .jobj [("type", .jstr "If"),
             ("condition", .jobj [("type", .jstr "Boolean"), ("value", .jbool true)]),
             ("consequence", .jlist [.null]),
             ("alternative", .jlist [])] := by
  refine ⟨?_, rfl, rfl⟩
  intro fuel s sts s' h hmem
  obtain ⟨sts2, he, hl⟩ := parse_ok_shape h
  injection he with e
  subst e
  have := parse_loop_no_none _ _ _ _ _ hl hmem
  simp at this

theorem top_level_no_none_witness : (none : Option Node) ∉ ([] : List (Option Node)) :=
  top_level_no_none_nested_none_serialized.1 2 (init []) [] (init []) rfl

/-- C10: parsing an empty token sequence succeeds (no crash), returns a
Program with no statements, and records no diagnostics. -/
theorem parse_empty_tokens : parse 2 (init []) = .ok (.program []) (init []) := rfl

end Gox



